import Mathlib

/-!
# Process manager (`projupd.c`): shallow embedding and verified properties

The program is an interactive menu over `/proc`, `kill`, `fork`/`exec`/`wait`
and a fixed-size in-memory table of tracked processes.  Everything the program
reads from the operating system is collected in an environment record `Env`;
everything it does to the outside is recorded as a list of `Out` events: one
per call of `printf`, carrying the format string and the argument values, and
one per call of `kill`.
C strings and file contents are lists of characters.
-/

namespace ProcessManager

/-! ## Constants -/

def COLOR_RED : String := "\x1b[31m"
def COLOR_GREEN : String := "\x1b[32m"
def COLOR_YELLOW : String := "\x1b[33m"
def COLOR_BLUE : String := "\x1b[34m"
def COLOR_MAGENTA : String := "\x1b[35m"
def COLOR_CYAN : String := "\x1b[36m"
def COLOR_RESET : String := "\x1b[0m"

def MAX_COMMAND_LENGTH : Nat := 256
def MAX_PROCESS_COUNT : Int := 1024

/-- Signal numbers of `<signal.h>` on Linux. -/
def SIGKILL : Int := 9
def SIGTERM : Int := 15

/-! ## Data model -/

/-- The C struct `ProcessInfo`. -/
structure ProcessInfo where
  pid : Int
  name : List Char
  user : List Char
  memory : Int
  state : Char
  start_time : Int
deriving DecidableEq

/-- A zero-initialised `ProcessInfo` (the array is a global, hence zeroed). -/
def ProcessInfo.zero : ProcessInfo := ⟨0, [], [], 0, Char.ofNat 0, 0⟩

/-- The two globals `tracked_processes` and `tracked_count`.  The array is a
map from the index used in `tracked_processes[i]` to the element stored there;
indices are not restricted to `0 .. 1023`, so that an access outside the array
is expressible (and is shown not to happen). -/
structure Registry where
  tracked_processes : Int → ProcessInfo
  tracked_count : Int

/-- The registry at program start. -/
def Registry.init : Registry := ⟨fun _ => ProcessInfo.zero, 0⟩

/-- One argument of a `printf` call. -/
inductive Arg where
  | int (v : Int)
  | long (v : Int)
  | chr (c : Char)
  | str (s : List Char)
  | dbl (v : Rat)
deriving DecidableEq

/-- One observable action: a `printf` call with its format and arguments, a
`perror` call, or a `kill` system call. -/
inductive Out where
  | printf (fmt : String) (args : List Arg)
  | perror (msg : String)
  | kill (pid : Int) (sig : Int)
deriving DecidableEq

/-- What the operating system answers during one menu operation. -/
structure Env where
  /-- Contents of `/proc/<pid>/status` when `fopen` succeeds. -/
  status : Int → Option (List Char)
  /-- Contents of `/proc/<pid>/cmdline` when `fopen` succeeds. -/
  cmdline : Int → Option (List Char)
  /-- Whether `access("/proc/<pid>", F_OK) != -1`. -/
  access_proc : Int → Bool
  /-- Result of `time(NULL)`. -/
  time : Int
  /-- Result of `kill(pid, sig)`. -/
  kill : Int → Int → Int
  /-- Result of `fork()` in the process being modelled. -/
  fork : Int
  /-- The status word stored by `waitpid`. -/
  wait_status : Int
  /-- Whether `execvp` in the child replaces the process image. -/
  exec_ok : Bool
  /-- Names returned by `readdir` on `/proc`, when `opendir` succeeds. -/
  proc_dir : Option (List (List Char))
  /-- Login name from `getpwuid`, when the user exists. -/
  getpwuid : Int → Option (List Char)
  /-- Values converted by `fscanf` from `/proc/loadavg`, when it opens. -/
  loadavg : Option (List Rat)
  /-- Contents of `/proc/meminfo` when `fopen` succeeds. -/
  meminfo : Option (List Char)

/-! ## C library functions -/

/-- The part of a buffer that C string functions see: up to the first NUL. -/
def cstr (buf : List Char) : List Char := buf.takeWhile (fun c => c != Char.ofNat 0)

/-- The function `isspace` in the C locale. -/
def isspace (c : Char) : Bool :=
  c == ' ' || c == '\t' || c == '\n' || c == Char.ofNat 11 || c == Char.ofNat 12 || c == '\r'

/-- The function `isdigit`. -/
def isdigit (c : Char) : Bool := '0' ≤ c && c ≤ '9'

/-- The characters `fgets` stores when there is room for `k` more, and the
rest of the stream. -/
def fgets_take : Nat → List Char → List Char × List Char
  | 0, s => ([], s)
  | _ + 1, [] => ([], [])
  | k + 1, c :: r =>
    if c = '\n' then ([c], r) else ((fgets_take k r).1.cons c, (fgets_take k r).2)

/-- The call `fgets(line, n, fp)`: `none` at end of file, otherwise the line
read (at most `n - 1` characters, ending after a newline) and the rest. -/
def fgets (n : Nat) (s : List Char) : Option (List Char × List Char) :=
  match s with
  | [] => none
  | _ :: _ => some (fgets_take (n - 1) s)

/-- The successive buffers of `while (fgets(line, 256, fp))`; every call
consumes a character, so `fuel` = length of the text is enough. -/
def read_lines : Nat → List Char → List (List Char)
  | 0, _ => []
  | fuel + 1, s =>
    match fgets 256 s with
    | none => []
    | some (line, rest) => line :: read_lines fuel rest

/-- All buffers `fgets(line, 256, fp)` yields on a file with contents `text`. -/
def file_lines (text : List Char) : List (List Char) := read_lines text.length text

/-- Whether `strncmp(a, lit, n) == 0`, for C strings `a` and `lit`. -/
def strncmp_eq (a : List Char) (lit : String) (n : Nat) : Bool :=
  a.take n == lit.toList.take n

/-- Whether `strcmp(a, lit) == 0`, for C strings `a` and `lit`. -/
def strcmp_eq (a : List Char) (lit : String) : Bool :=
  a == lit.toList

/-- Matching the ordinary characters of a scanf format against the input. -/
def match_literal : List Char → List Char → Option (List Char)
  | [], s => some s
  | _ :: _, [] => none
  | f :: fs, c :: r => if f = c then match_literal fs r else none

/-- A white-space directive of a scanf format, also the skipping of leading
white space done by `%s` and `%d`. -/
def skip_space (s : List Char) : List Char := s.dropWhile isspace

/-- The conversion `%s` on a stream: the word stored (`none` on input
failure) and the rest of the stream. -/
def scan_s (s : List Char) : Option (List Char) × List Char :=
  match skip_space s with
  | [] => (none, [])
  | c :: r =>
    (some ((c :: r).takeWhile (fun x => !isspace x)), (c :: r).dropWhile (fun x => !isspace x))

/-- The conversion `%<w>s` on a string: the word stored, if any. -/
def scan_ws (w : Nat) (s : List Char) : Option (List Char) :=
  match skip_space s with
  | [] => none
  | c :: r => some (((c :: r).takeWhile (fun x => !isspace x)).take w)

/-- The conversion `%c`: `none` on input failure. -/
def scan_c (s : List Char) : Option Char :=
  match s with
  | [] => none
  | c :: _ => some c

/-- Value of a run of decimal digits. -/
def digits_value (ds : List Char) : Nat :=
  ds.foldl (fun a c => 10 * a + (c.toNat - '0'.toNat)) 0

def LONG_MAX : Int := 2 ^ 63 - 1
def LONG_MIN : Int := -(2 ^ 63)

/-- Saturation of `strtol` at the ends of `long`. -/
def clamp_long (v : Int) : Int := max LONG_MIN (min v LONG_MAX)

/-- Conversion of a `long` to `int` (keeps the low 32 bits, two's complement). -/
def to_int32 (v : Int) : Int := Int.emod (v + 2 ^ 31) (2 ^ 32) - 2 ^ 31

/-- Conversion of an `int` to `unsigned` (`uid_t`). -/
def to_uint32 (v : Int) : Int := Int.emod v (2 ^ 32)

/-- The result of a subtraction of two `long` values (wraps on overflow). -/
def to_long (v : Int) : Int := Int.emod (v + 2 ^ 63) (2 ^ 64) - 2 ^ 63

/-- The function `strtol(s, NULL, 10)`. -/
def strtol (s : List Char) : Int :=
  match skip_space s with
  | [] => 0
  | c :: r =>
    if c = '-' then clamp_long (-(digits_value (r.takeWhile isdigit)))
    else if c = '+' then clamp_long (digits_value (r.takeWhile isdigit))
    else clamp_long (digits_value ((c :: r).takeWhile isdigit))

/-- The function `atoi`, as `(int) strtol(s, NULL, 10)`. -/
def atoi (s : List Char) : Int := to_int32 (strtol s)

/-- The conversion `%d` on a stream: the `int` stored (`none` when no number
is there) and the rest of the stream.  A sign that is not followed by a
digit is consumed; a value that does not fit is converted as `strtol` and a
cast to `int` do. -/
def scan_d (s : List Char) : Option Int × List Char :=
  match skip_space s with
  | [] => (none, [])
  | c :: r =>
    if c = '-' then
      if r.takeWhile isdigit = [] then (none, r)
      else (some (to_int32 (clamp_long (-(digits_value (r.takeWhile isdigit))))),
        r.dropWhile isdigit)
    else if c = '+' then
      if r.takeWhile isdigit = [] then (none, r)
      else (some (to_int32 (clamp_long (digits_value (r.takeWhile isdigit)))),
        r.dropWhile isdigit)
    else
      if (c :: r).takeWhile isdigit = [] then (none, c :: r)
      else (some (to_int32 (clamp_long (digits_value ((c :: r).takeWhile isdigit)))),
        (c :: r).dropWhile isdigit)

/-- The call `sscanf(line, "<lit> %<w>s", dst)`: the word stored, if any. -/
def sscanf_s (lit : String) (w : Nat) (line : List Char) : Option (List Char) :=
  (match_literal lit.toList line).bind (fun r => scan_ws w (skip_space r))

/-- The call `sscanf(line, "<lit> %c", dst)`: the character stored, if any. -/
def sscanf_c (lit : String) (line : List Char) : Option Char :=
  (match_literal lit.toList line).bind (fun r => scan_c (skip_space r))

/-- The call `sscanf(line, "<lit> %d", dst)`: the number stored, if any. -/
def sscanf_d (lit : String) (line : List Char) : Option Int :=
  (match_literal lit.toList line).bind (fun r => (scan_d (skip_space r)).1)

/-- The macro `WIFEXITED` of `<sys/wait.h>`: the low seven bits are zero. -/
def WIFEXITED (status : Int) : Bool := Int.emod status 128 == 0

/-- The macro `WEXITSTATUS` of `<sys/wait.h>`: bits 8 to 15. -/
def WEXITSTATUS (status : Int) : Int := Int.emod (Int.ediv status 256) 256

/-! ## terminate_process -/

/-- The function `terminate_process`: return value and actions, the `kill`
call first. -/
def terminate_process (env : Env) (pid : Int) (signal_type : List Char) : Int × List Out :=
  let sig := if strcmp_eq signal_type "SIGKILL" then SIGKILL else SIGTERM
  if env.kill pid sig = 0 then
    (0, [Out.kill pid sig,
      Out.printf (COLOR_GREEN ++ "Process %d terminated successfully with %s\n" ++ COLOR_RESET)
        [Arg.int pid, Arg.str signal_type]])
  else
    (-1, [Out.kill pid sig,
      Out.printf (COLOR_RED ++ "Error terminating process %d\n" ++ COLOR_RESET) [Arg.int pid]])

/-! ## get_process_details -/

/-- The body of the `while (fgets ...)` loop of `get_process_details`. -/
def details_line (line : List Char) : List Out :=
  if strncmp_eq (cstr line) "Name:" 5 ||
      strncmp_eq (cstr line) "State:" 6 ||
      strncmp_eq (cstr line) "Pid:" 4 ||
      strncmp_eq (cstr line) "PPid:" 5 ||
      strncmp_eq (cstr line) "VmSize:" 7 ||
      strncmp_eq (cstr line) "VmRSS:" 6 ||
      strncmp_eq (cstr line) "Threads:" 8 then
    [Out.printf "%s" [Arg.str (cstr line)]]
  else []

/-- The part of `get_process_details` that prints the command line. -/
def details_cmdline (env : Env) (pid : Int) : List Out :=
  match env.cmdline pid with
  | none => []
  | some text =>
    match fgets 256 text with
    | none => []
    | some (line, _) => [Out.printf "Command: %s\n" [Arg.str (cstr line)]]

/-- The function `get_process_details`. -/
def get_process_details (env : Env) (pid : Int) : List Out :=
  match env.status pid with
  | none =>
    [Out.printf (COLOR_RED ++ "Unable to get details for process %d\n" ++ COLOR_RESET)
      [Arg.int pid]]
  | some text =>
    [Out.printf (COLOR_YELLOW ++ "\nProcess Details for PID %d:\n" ++ COLOR_RESET) [Arg.int pid],
      Out.printf "----------------------------------------\n" []]
    ++ ((file_lines text).map details_line).flatten
    ++ details_cmdline env pid

/-! ## start_process -/

/-- How a call of `start_process` ends in the process being modelled. -/
inductive StartResult where
  /-- The parent returns `ret`. -/
  | returned (ret : Int) (out : List Out)
  /-- The child: `execvp` replaced the process image. -/
  | exec (argv : List (List Char))
  /-- The child: `execvp` failed, the child calls `exit(code)`. -/
  | child_exit (code : Int) (out : List Out)
deriving DecidableEq

/-- The function `start_process`. -/
def start_process (env : Env) (command : List Char) : StartResult :=
  if env.fork < 0 then
    StartResult.returned (-1) [Out.printf (COLOR_RED ++ "Error: Fork failed\n" ++ COLOR_RESET) []]
  else if env.fork = 0 then
    if env.exec_ok then
      StartResult.exec ["/bin/sh".toList, "-c".toList, command]
    else
      StartResult.child_exit 1
        [Out.printf (COLOR_RED ++ "Error: Command execution failed\n" ++ COLOR_RESET) []]
  else
    if WIFEXITED env.wait_status then
      StartResult.returned 0
        [Out.printf (COLOR_GREEN ++ "Process completed with status %d\n" ++ COLOR_RESET)
          [Arg.int (WEXITSTATUS env.wait_status)]]
    else
      StartResult.returned (-1)
        [Out.printf (COLOR_RED ++ "Process terminated abnormally\n" ++ COLOR_RESET) []]

/-! ## list_processes -/

/-- The locals `state`, `uid` and `command` of the loop body of `list_processes`. -/
structure ListFields where
  state : Char
  uid : Int
  command : List Char
deriving DecidableEq

/-- The body of the inner `while (fgets ...)` loop of `list_processes`. -/
def list_line (f : ListFields) (line : List Char) : ListFields :=
  if strncmp_eq (cstr line) "State:" 6 then
    match sscanf_c "State:" (cstr line) with
    | some c => { f with state := c }
    | none => f
  else if strncmp_eq (cstr line) "Uid:" 4 then
    match sscanf_d "Uid:" (cstr line) with
    | some u => { f with uid := to_uint32 u }
    | none => f
  else if strncmp_eq (cstr line) "Name:" 5 then
    match sscanf_s "Name:" 255 (cstr line) with
    | some w => { f with command := w }
    | none => f
  else f

/-- One pass of the `while ((entry = readdir(dir)))` loop of `list_processes`
for the entry named `d_name`.  The login name is assumed shorter than the
255 characters `strncpy` copies. -/
def list_entry (env : Env) (d_name : List Char) : List Out :=
  if !isdigit (d_name.headD (Char.ofNat 0)) then []
  else
    match env.status (atoi d_name) with
    | none => []
    | some text =>
      let f := (file_lines text).foldl list_line ⟨'?', 0, "unknown".toList⟩
      let user := (match env.getpwuid f.uid with
        | some n => n
        | none => "unknown".toList).take 255
      [Out.printf "%-8d %-15s %-12c %-8s\n"
        [Arg.int (atoi d_name), Arg.str user, Arg.chr f.state, Arg.str f.command]]

/-- The function `list_processes`. -/
def list_processes (env : Env) : List Out :=
  [Out.printf (COLOR_GREEN ++ "\nACTIVE PROCESSES:\n" ++ COLOR_RESET) [],
    Out.printf "%-8s %-15s %-12s %-8s\n"
      [Arg.str "PID".toList, Arg.str "USER".toList, Arg.str "STATE".toList,
        Arg.str "COMMAND".toList],
    Out.printf "----------------------------------------\n" []]
  ++ (match env.proc_dir with
    | none => [Out.perror (COLOR_RED ++ "Failed to open /proc" ++ COLOR_RESET)]
    | some entries => (entries.map (list_entry env)).flatten)

/-! ## analyze_system_load -/

/-- The function `analyze_system_load`. -/
def analyze_system_load (env : Env) : List Out :=
  [Out.printf (COLOR_MAGENTA ++ "\nSYSTEM LOAD ANALYSIS:\n" ++ COLOR_RESET) []]
  ++ (match env.loadavg with
    | some [a, b, c] =>
      [Out.printf "Load Averages: %.2f (1m), %.2f (5m), %.2f (15m)\n"
        [Arg.dbl a, Arg.dbl b, Arg.dbl c]]
    | _ => [])
  ++ (match env.meminfo with
    | none => []
    | some text =>
      Out.printf "\nMemory Information:\n" [] ::
        ((file_lines text).take 3).map (fun line => Out.printf "%s" [Arg.str (cstr line)]))

/-! ## track_process -/

/-- The body of the `while (fgets ...)` loop of `track_process`. -/
def track_line (proc : ProcessInfo) (line : List Char) : ProcessInfo :=
  if strncmp_eq (cstr line) "Name:" 5 then
    match sscanf_s "Name:" 255 (cstr line) with
    | some w => { proc with name := w }
    | none => proc
  else if strncmp_eq (cstr line) "State:" 6 then
    match sscanf_c "State:" (cstr line) with
    | some c => { proc with state := c }
    | none => proc
  else proc

/-- The function `track_process`: new globals and what was printed. -/
def track_process (env : Env) (pid : Int) (reg : Registry) : Registry × List Out :=
  if reg.tracked_count ≥ MAX_PROCESS_COUNT then
    (reg, [Out.printf (COLOR_RED ++ "Maximum tracking limit reached\n" ++ COLOR_RESET) []])
  else
    match env.status pid with
    | none =>
      (reg, [Out.printf (COLOR_RED ++ "Process %d not found\n" ++ COLOR_RESET) [Arg.int pid]])
    | some text =>
      let i := reg.tracked_count
      let proc0 := reg.tracked_processes i
      let proc1 := { proc0 with pid := pid, start_time := env.time }
      let proc := (file_lines text).foldl track_line proc1
      (⟨fun j => if j = i then proc else reg.tracked_processes j, i + 1⟩,
        [Out.printf (COLOR_GREEN ++ "Now tracking process %d (%s)\n" ++ COLOR_RESET)
          [Arg.int pid, Arg.str proc.name]])

/-! ## display_tracked_processes -/

/-- One pass of the `for` loop of `display_tracked_processes`. -/
def display_row (env : Env) (now : Int) (proc : ProcessInfo) : Out :=
  let runtime := to_long (now - proc.start_time)
  if env.access_proc proc.pid then
    Out.printf "%-8d %-15s %-10c %-15ld\n"
      [Arg.int proc.pid, Arg.str proc.name, Arg.chr proc.state, Arg.long runtime]
  else
    Out.printf "%-8d %-15s %-10s %-15s\n"
      [Arg.int proc.pid, Arg.str proc.name, Arg.str "ENDED".toList, Arg.str "-".toList]

/-- The rows printed by the `for (i = 0; i < tracked_count; i++)` loop. -/
def display_rows (env : Env) (now : Int) (reg : Registry) : List Out :=
  (List.range reg.tracked_count.toNat).map
    (fun (i : Nat) => display_row env now (reg.tracked_processes (i : Int)))

/-- The function `display_tracked_processes`: the globals after the call and
what was printed. -/
def display_tracked_processes (env : Env) (reg : Registry) : Registry × List Out :=
  if reg.tracked_count = 0 then
    (reg, [Out.printf (COLOR_YELLOW ++ "No processes being tracked\n" ++ COLOR_RESET) []])
  else
    (reg,
      [Out.printf (COLOR_GREEN ++ "\nTRACKED PROCESSES:\n" ++ COLOR_RESET) [],
        Out.printf "%-8s %-15s %-10s %-15s\n"
          [Arg.str "PID".toList, Arg.str "NAME".toList, Arg.str "STATE".toList,
            Arg.str "RUNTIME(s)".toList],
        Out.printf "------------------------------------------------\n" []]
      ++ display_rows env env.time reg)

/-! ## The menu loop of main -/

/-- The function `display_menu`. -/
def display_menu : List Out :=
  [Out.printf ("\n" ++ COLOR_BLUE) [],
    Out.printf "╔═══════════════════════════════════════════╗\n" [],
    Out.printf "║              MENU OPTIONS                ║\n" [],
    Out.printf "╠═══════════════════════════════════════════╣\n" [],
    Out.printf ("║ 1. " ++ COLOR_CYAN ++ "List Active Processes           " ++ COLOR_BLUE ++ "║\n") [],
    Out.printf ("║ 2. " ++ COLOR_CYAN ++ "Terminate Process              " ++ COLOR_BLUE ++ "║\n") [],
    Out.printf ("║ 3. " ++ COLOR_CYAN ++ "Monitor System Load            " ++ COLOR_BLUE ++ "║\n") [],
    Out.printf ("║ 4. " ++ COLOR_CYAN ++ "Get Process Details            " ++ COLOR_BLUE ++ "║\n") [],
    Out.printf ("║ 5. " ++ COLOR_CYAN ++ "Start New Process              " ++ COLOR_BLUE ++ "║\n") [],
    Out.printf ("║ 6. " ++ COLOR_CYAN ++ "Track New Process              " ++ COLOR_BLUE ++ "║\n") [],
    Out.printf ("║ 7. " ++ COLOR_CYAN ++ "Show Tracked Processes         " ++ COLOR_BLUE ++ "║\n") [],
    Out.printf ("║ 8. " ++ COLOR_RED ++ "Exit                           " ++ COLOR_BLUE ++ "║\n") [],
    Out.printf "╚═══════════════════════════════════════════╝\n" [],
    Out.printf (COLOR_GREEN ++ "Enter your choice: " ++ COLOR_RESET) []]

/-- The loop `while (getchar() != '\n');` on the rest of standard input.
At end of input `getchar` returns `EOF`, which is not a newline, so the loop
goes on; `none` means the loop has not ended within `fuel` calls. -/
def clear_input : Nat → List Char → Option (List Char)
  | 0, _ => none
  | fuel + 1, [] => clear_input fuel []
  | fuel + 1, c :: r => if c = '\n' then some r else clear_input fuel r

/-- The globals and the part of the locals of `main` that live across
iterations: the rest of standard input and the buffer `input`. -/
structure MainState where
  reg : Registry
  stdin : List Char
  input : List Char

/-- How one iteration of `while (1)` in `main` ends. -/
inductive Step where
  /-- The loop goes on to the next `display_menu`. -/
  | next (st : MainState) (out : List Out)
  /-- The process ends with `code`. -/
  | exit (code : Int) (out : List Out)
  /-- The process (the forked child) runs another program. -/
  | exec (argv : List (List Char)) (out : List Out)
  /-- The call `scanf("%s", input)` wrote past the 256 bytes of `input`, a
  local of `main`: the loop goes on with the globals as they were, since they
  lie outside the frame of `main`; `out` is what was printed before the
  overrun, and the call of `terminate_process` that follows it, made with the
  locals as the overrun left them, is not recorded. -/
  | overflow (st : MainState) (out : List Out)

/-- The state in which the next iteration starts, when there is one. -/
def Step.after : Step → Option MainState
  | Step.next st _ => some st
  | Step.overflow st _ => some st
  | _ => none

/-- The statement `input[strcspn(input, "\n")] = 0`. -/
def cut_newline (input : List Char) : List Char := input.takeWhile (fun c => c != '\n')

/-- The case `2` of the switch, up to its clearing loop. -/
def case_terminate (env : Env) (st : MainState) (out : List Out) : Step :=
  match scan_d st.stdin with
  | (none, s1) => Step.next { st with stdin := s1 } (out ++ [Out.printf "Enter PID to terminate: " []])
  | (some pid, s1) =>
    match scan_s s1 with
    | (none, s2) =>
      Step.next { st with stdin := s2 }
        (out ++ [Out.printf "Enter PID to terminate: " [],
            Out.printf "Enter signal (SIGTERM/SIGKILL): " []]
          ++ (terminate_process env pid st.input).2)
    | (some w, s2) =>
      if w.length ≥ 256 then
        Step.overflow { st with stdin := s2, input := cstr w }
          (out ++ [Out.printf "Enter PID to terminate: " [],
            Out.printf "Enter signal (SIGTERM/SIGKILL): " []])
      else
        Step.next { st with stdin := s2, input := cstr w }
          (out ++ [Out.printf "Enter PID to terminate: " [],
              Out.printf "Enter signal (SIGTERM/SIGKILL): " []]
            ++ (terminate_process env pid (cstr w)).2)

/-- The case `4` of the switch, up to its clearing loop. -/
def case_details (env : Env) (st : MainState) (out : List Out) : Step :=
  match scan_d st.stdin with
  | (none, s1) => Step.next { st with stdin := s1 } (out ++ [Out.printf "Enter PID for details: " []])
  | (some pid, s1) =>
    Step.next { st with stdin := s1 }
      (out ++ [Out.printf "Enter PID for details: " []] ++ get_process_details env pid)

/-- The case `5` of the switch. -/
def case_start (env : Env) (st : MainState) (out : List Out) : Step :=
  let read := fgets 256 st.stdin
  let input := cut_newline (match read with
    | none => st.input
    | some (line, _) => cstr line)
  let s1 := match read with
    | none => st.stdin
    | some (_, rest) => rest
  match start_process env input with
  | StartResult.returned _ o =>
    Step.next { st with stdin := s1, input := input }
      (out ++ [Out.printf "Enter command to execute: " []] ++ o)
  | StartResult.exec argv => Step.exec argv (out ++ [Out.printf "Enter command to execute: " []])
  | StartResult.child_exit code o =>
    Step.exit code (out ++ [Out.printf "Enter command to execute: " []] ++ o)

/-- The case `6` of the switch, up to its clearing loop. -/
def case_track (env : Env) (st : MainState) (out : List Out) : Step :=
  match scan_d st.stdin with
  | (none, s1) => Step.next { st with stdin := s1 } (out ++ [Out.printf "Enter PID to track: " []])
  | (some pid, s1) =>
    Step.next { st with stdin := s1, reg := (track_process env pid st.reg).1 }
      (out ++ [Out.printf "Enter PID to track: " []] ++ (track_process env pid st.reg).2)

/-- The trailing `while (getchar() != '\n');` of the cases `2`, `4` and `6`. -/
def then_clear (fuel : Nat) (r : Step) : Option Step :=
  match r with
  | Step.next st out => (clear_input fuel st.stdin).map (fun s => Step.next { st with stdin := s } out)
  | Step.overflow st out =>
    (clear_input fuel st.stdin).map (fun s => Step.overflow { st with stdin := s } out)
  | other => some other

/-- One iteration of the `while (1)` loop of `main`; `none` when one of its
clearing loops has not ended within `fuel` calls of `getchar`. -/
def main_iteration (env : Env) (fuel : Nat) (st : MainState) : Option Step :=
  match scan_d st.stdin with
  | (none, s1) =>
    (clear_input fuel s1).map (fun s2 =>
      Step.next { st with stdin := s2 }
        (display_menu ++
          [Out.printf (COLOR_RED ++ "Invalid input. Please enter a number.\n" ++ COLOR_RESET) []]))
  | (some choice, s1) =>
    (clear_input fuel s1).bind (fun s2 =>
      if choice = 1 then
        some (Step.next { st with stdin := s2 } (display_menu ++ list_processes env))
      else if choice = 2 then
        then_clear fuel (case_terminate env { st with stdin := s2 } display_menu)
      else if choice = 3 then
        some (Step.next { st with stdin := s2 } (display_menu ++ analyze_system_load env))
      else if choice = 4 then
        then_clear fuel (case_details env { st with stdin := s2 } display_menu)
      else if choice = 5 then
        some (case_start env { st with stdin := s2 } display_menu)
      else if choice = 6 then
        then_clear fuel (case_track env { st with stdin := s2 } display_menu)
      else if choice = 7 then
        some (Step.next
          { st with stdin := s2, reg := (display_tracked_processes env st.reg).1 }
          (display_menu ++ (display_tracked_processes env st.reg).2))
      else if choice = 8 then
        some (Step.exit 0
          (display_menu ++ [Out.printf (COLOR_RED ++ "Exiting Process Manager.\n" ++ COLOR_RESET) []]))
      else
        some (Step.next { st with stdin := s2 }
          (display_menu ++
            [Out.printf (COLOR_RED ++ "Invalid choice. Please try again.\n" ++ COLOR_RESET) []])))

/-- States of `main` at the head of the menu loop that can be reached from
program start, whatever the input and whatever the operating system answers;
an iteration in which `scanf("%s", input)` overran `input` counts as well. -/
inductive Reachable : MainState → Prop where
  | start (stdin input : List Char) : Reachable ⟨Registry.init, stdin, input⟩
  | step (env : Env) (fuel : Nat) (st st2 : MainState) (r : Step) :
      Reachable st → main_iteration env fuel st = some r → r.after = some st2 → Reachable st2

/-- Whether an action is a `kill` system call. -/
def Out.is_kill : Out → Bool
  | Out.kill _ _ => true
  | _ => false

/-- The arguments of a `printf` call. -/
def Out.args : Out → List Arg
  | Out.printf _ a => a
  | _ => []

/-- The state character that a read of `/proc/<pid>/status` gives at the time
of the call, read the way `track_process` reads it; `none` when the file
cannot be opened. -/
def current_state (env : Env) (pid : Int) : Option Char :=
  (env.status pid).map
    (fun text => ((file_lines text).foldl track_line ProcessInfo.zero).state)

/-- Whether `line` starts with the characters of `key`. -/
def begins_with (key : String) (line : List Char) : Bool :=
  line.take key.length == key.toList

/-- The value a `Key:<white space>value` line of a status text gives: what
follows the key, without the leading white space and without the newline. -/
def field_value (key : String) (line : List Char) : List Char :=
  (skip_space (line.drop key.length)).takeWhile (fun c => c != '\n')

/-- The first white-space-delimited word of a value. -/
def first_word (v : List Char) : List Char := v.takeWhile (fun c => !isspace c)

/-- A line of a text file that fits the buffer of `fgets(line, 256, fp)`: at
most 254 characters other than newline and NUL, followed by a newline. -/
def line_ok (l : List Char) : Bool :=
  l.getLast? == some '\n' &&
    l.dropLast.all (fun c => c != '\n' && c != Char.ofNat 0) &&
    decide (l.length ≤ 255)

/-- A line of a text file of any length: characters other than newline,
followed by a newline. -/
def line_nl (l : List Char) : Bool :=
  l.getLast? == some '\n' && l.dropLast.all (fun c => c != '\n')

/-- The values, in order, of the lines among `bufs` that begin with `key` and
carry a value; each line is taken up to its first NUL. -/
def field_values (key : String) (bufs : List (List Char)) : List (List Char) :=
  ((((bufs.map cstr).filter (begins_with key)).map (field_value key)).filter
    (fun v => v != []))

/-- The value of the last line among `bufs` that begins with `key` and carries
a value. -/
def last_value (key : String) (bufs : List (List Char)) : Option (List Char) :=
  (field_values key bufs).getLast?

/-- The lines that `get_process_details` prints: those starting with one of
the seven keys its loop compares with. -/
def details_field (line : List Char) : Bool :=
  begins_with "Name:" line || begins_with "State:" line || begins_with "Pid:" line ||
    begins_with "PPid:" line || begins_with "VmSize:" line || begins_with "VmRSS:" line ||
    begins_with "Threads:" line

/-! ## Concrete inputs -/

/-- The lines of a status file in the format of Linux. -/
def sample_status : List (List Char) :=
  ["Name:\tWeb Content\n".toList, "Umask:\t0022\n".toList, "State:\tS (sleeping)\n".toList,
    "Pid:\t1\n".toList, "PPid:\t0\n".toList, "Uid:\t1000\t1000\t1000\t1000\n".toList,
    "VmSize:\t  2400 kB\n".toList, "Threads:\t4\n".toList]

/-- A status file with a line longer than the 255 characters `fgets` reads
at once, as Linux writes it on a machine with many memory nodes. -/
def sample_status_long : List (List Char) :=
  ["Name:\tWeb Content\n".toList, "Umask:\t0022\n".toList, "State:\tS (sleeping)\n".toList,
    "Pid:\t1\n".toList, "PPid:\t0\n".toList, "Uid:\t1000\t1000\t1000\t1000\n".toList,
    "VmSize:\t  2400 kB\n".toList, "Threads:\t4\n".toList,
    "Mems_allowed:\t".toList ++ List.replicate 287 '0' ++ ['\n'],
    "voluntary_ctxt_switches:\t12\n".toList]

/-- An operating system in which only process 1 exists: it sleeps, `kill`
succeeds on it alone, `fork` succeeds and the child exits with code 1. -/
def sample_env : Env where
  status := fun p => if p = 1 then some "Name:\tinit\nState:\tS (sleeping)\n".toList else none
  cmdline := fun _ => none
  access_proc := fun p => p == 1
  time := 100
  kill := fun p _ => if p = 1 then 0 else -1
  fork := 5
  wait_status := 256
  exec_ok := true
  proc_dir := some ["1".toList, "self".toList]
  getpwuid := fun _ => none
  loadavg := none
  meminfo := none

/-- Sixty seconds later process 1 is still there, now a zombie. -/
def sample_env_zombie : Env :=
  { sample_env with
    status := fun p => if p = 1 then some "Name:\tinit\nState:\tZ (zombie)\n".toList else none
    time := 160 }

/-- Sixty seconds later process 1 is gone. -/
def sample_env_gone : Env :=
  { sample_env with
    status := fun _ => none
    access_proc := fun _ => false
    time := 160 }

/-- An operating system in which process 1 has the status file `sample_status`. -/
def sample_env_web : Env :=
  { sample_env with status := fun p => if p = 1 then some sample_status.flatten else none }

/-- An operating system in which process 1 has the status file
`sample_status_long`. -/
def sample_env_long : Env :=
  { sample_env with status := fun p => if p = 1 then some sample_status_long.flatten else none }

/-- Program start with the operator about to type `6`, `1`. -/
def sample_start : MainState := ⟨Registry.init, "6\n1\n".toList, []⟩

/-- The state after process 1 was tracked. -/
def sample_tracked : MainState := ⟨(track_process sample_env 1 Registry.init).1, [], []⟩

/-- Program start with the operator about to type `2`, then `1` and a signal
name of 300 characters. -/
def sample_overrun_start : MainState :=
  ⟨Registry.init, "2\n1 ".toList ++ List.replicate 300 'A' ++ ['\n'], []⟩

/-- The state after that signal name has overrun the buffer `input`. -/
def sample_overrun : MainState := ⟨Registry.init, [], List.replicate 300 'A'⟩

/-! # Theorems -/

/-! ## Supporting lemmas: the registry across one iteration -/

theorem track_process_count (env : Env) (pid : Int) (reg : Registry)
    (h : 0 ≤ reg.tracked_count ∧ reg.tracked_count ≤ MAX_PROCESS_COUNT) :
    0 ≤ (track_process env pid reg).1.tracked_count ∧
      (track_process env pid reg).1.tracked_count ≤ MAX_PROCESS_COUNT := by
  unfold track_process
  split
  · exact h
  · split
    · exact h
    · simp only [MAX_PROCESS_COUNT] at *
      constructor <;> omega

theorem then_clear_reg (fuel : Nat) (r r2 : Step) (st2 : MainState)
    (h : then_clear fuel r = some r2) (h2 : r2.after = some st2) :
    ∃ st1, r.after = some st1 ∧ st2.reg = st1.reg := by
  unfold then_clear at h
  split at h
  · rename_i st o
    cases hc : clear_input fuel st.stdin with
    | none => simp [hc] at h
    | some s =>
      simp [hc] at h
      subst h
      simp only [Step.after, Option.some.injEq] at h2
      subst h2
      exact ⟨st, rfl, rfl⟩
  · rename_i st o
    cases hc : clear_input fuel st.stdin with
    | none => simp [hc] at h
    | some s =>
      simp [hc] at h
      subst h
      simp only [Step.after, Option.some.injEq] at h2
      subst h2
      exact ⟨st, rfl, rfl⟩
  · simp at h
    subst h
    exact ⟨st2, h2, rfl⟩

theorem case_terminate_reg (env : Env) (st st2 : MainState) (o : List Out)
    (h : (case_terminate env st o).after = some st2) : st2.reg = st.reg := by
  unfold case_terminate at h
  split at h
  · simp [Step.after] at h; rw [← h]
  · split at h
    · simp [Step.after] at h; rw [← h]
    · split at h
      · simp [Step.after] at h; rw [← h]
      · simp [Step.after] at h; rw [← h]

theorem case_details_reg (env : Env) (st st2 : MainState) (o : List Out)
    (h : (case_details env st o).after = some st2) : st2.reg = st.reg := by
  unfold case_details at h
  split at h
  · simp [Step.after] at h; rw [← h]
  · simp [Step.after] at h; rw [← h]

theorem case_start_reg (env : Env) (st st2 : MainState) (o : List Out)
    (h : (case_start env st o).after = some st2) : st2.reg = st.reg := by
  unfold case_start at h
  simp only at h
  split at h
  · simp [Step.after] at h; rw [← h]
  · simp [Step.after] at h
  · simp [Step.after] at h

theorem case_track_reg (env : Env) (st st2 : MainState) (o : List Out)
    (h : (case_track env st o).after = some st2) :
    st2.reg = st.reg ∨ ∃ pid, st2.reg = (track_process env pid st.reg).1 := by
  unfold case_track at h
  split at h
  · simp [Step.after] at h; left; rw [← h]
  · rename_i pid s1 _
    simp [Step.after] at h; right; exact ⟨pid, by rw [← h]⟩

theorem main_iteration_reg (env : Env) (fuel : Nat) (st st2 : MainState) (r : Step)
    (h : main_iteration env fuel st = some r) (h2 : r.after = some st2) :
    st2.reg = st.reg ∨ ∃ pid, st2.reg = (track_process env pid st.reg).1 := by
  unfold main_iteration at h
  split at h
  · rename_i s1 _
    cases hc : clear_input fuel s1 with
    | none => simp [hc] at h
    | some s2 =>
      simp [hc] at h
      subst h
      simp [Step.after] at h2
      left; rw [← h2]
  · rename_i choice s1 _
    cases hc : clear_input fuel s1 with
    | none => simp [hc] at h
    | some s2 =>
      simp only [hc, Option.bind_some] at h
      split at h
      · simp at h; subst h; simp [Step.after] at h2; left; rw [← h2]
      split at h
      · obtain ⟨st1, h1, h3⟩ := then_clear_reg _ _ _ _ h h2
        left; rw [h3, case_terminate_reg _ _ _ _ h1]
      split at h
      · simp at h; subst h; simp [Step.after] at h2; left; rw [← h2]
      split at h
      · obtain ⟨st1, h1, h3⟩ := then_clear_reg _ _ _ _ h h2
        left; rw [h3, case_details_reg _ _ _ _ h1]
      split at h
      · simp at h; subst h; left; rw [case_start_reg _ _ _ _ h2]
      split at h
      · obtain ⟨st1, h1, h3⟩ := then_clear_reg _ _ _ _ h h2
        rw [h3]
        exact case_track_reg env ⟨st.reg, s2, st.input⟩ _ _ h1
      split at h
      · simp at h; subst h; simp [Step.after] at h2; left; rw [← h2]
        simp [display_tracked_processes]; split <;> rfl
      split at h
      · simp at h; subst h; simp [Step.after] at h2
      · simp at h; subst h; simp [Step.after] at h2; left; rw [← h2]

theorem sample_tracked_reachable : Reachable sample_tracked :=
  Reachable.step sample_env 10 sample_start sample_tracked
    (Step.next sample_tracked
      (display_menu ++ [Out.printf "Enter PID to track: " []]
        ++ (track_process sample_env 1 Registry.init).2))
    (Reachable.start _ _) rfl rfl

set_option maxRecDepth 100000 in
theorem sample_overrun_reachable : Reachable sample_overrun :=
  Reachable.step sample_env 400 sample_overrun_start sample_overrun
    (Step.overflow sample_overrun
      (display_menu ++ [Out.printf "Enter PID to terminate: " [],
        Out.printf "Enter signal (SIGTERM/SIGKILL): " []]))
    (Reachable.start _ _) rfl rfl

/-! ## Tracking registry -/

/-- C1: in every state reachable from program start by iterations of the menu
loop, whatever is typed (a signal name that overruns the buffer `input`
included) and whatever the operating system answers,
`0 ≤ tracked_count ≤ 1024`, and a call of `track_process` in such a state
leaves every slot with index below 0 or at least 1024 as it was. -/
theorem tracked_count_within_capacity (st : MainState) (h : Reachable st) :
    (0 ≤ st.reg.tracked_count ∧ st.reg.tracked_count ≤ 1024) ∧
    ∀ (env : Env) (pid i : Int), (i < 0 ∨ 1024 ≤ i) →
      (track_process env pid st.reg).1.tracked_processes i = st.reg.tracked_processes i := by
  have hb : 0 ≤ st.reg.tracked_count ∧ st.reg.tracked_count ≤ MAX_PROCESS_COUNT := by
    induction h with
    | start stdin input => simp [Registry.init, MAX_PROCESS_COUNT]
    | step env fuel st st2 r _ hstep hafter ih =>
      rcases main_iteration_reg env fuel st st2 r hstep hafter with h1 | ⟨pid, h1⟩
      · rw [h1]; exact ih
      · rw [h1]; exact track_process_count env pid st.reg ih
  refine ⟨hb, ?_⟩
  intro env pid i hi
  unfold track_process
  simp only [MAX_PROCESS_COUNT] at *
  split
  · rfl
  · split
    · rfl
    · have hne : i ≠ st.reg.tracked_count := by omega
      simp [hne]

/-- Witness of C1 at the state reached by tracking process 1 and at the state
reached by typing a signal name of 300 characters. -/
theorem tracked_count_within_capacity_witness :
    Reachable sample_tracked ∧
    (0 ≤ sample_tracked.reg.tracked_count ∧ sample_tracked.reg.tracked_count ≤ 1024) ∧
    (track_process sample_env 1 sample_tracked.reg).1.tracked_processes 1024
      = sample_tracked.reg.tracked_processes 1024 ∧
    Reachable sample_overrun ∧
    (0 ≤ sample_overrun.reg.tracked_count ∧ sample_overrun.reg.tracked_count ≤ 1024) :=
  ⟨sample_tracked_reachable,
    (tracked_count_within_capacity sample_tracked sample_tracked_reachable).1,
    (tracked_count_within_capacity sample_tracked sample_tracked_reachable).2
      sample_env 1 1024 (Or.inr (by decide)),
    sample_overrun_reachable,
    (tracked_count_within_capacity sample_overrun sample_overrun_reachable).1⟩

/-- C2: `track_process` reports the limit exactly when `tracked_count ≥ 1024`,
and then without consulting the operating system; below the limit it reports
"not found" exactly when the status file cannot be opened; in both cases the
registry it leaves is the registry it was given. -/
theorem track_process_failure (env : Env) (pid : Int) (reg : Registry) :
    ((track_process env pid reg).2 =
        [Out.printf (COLOR_RED ++ "Maximum tracking limit reached\n" ++ COLOR_RESET) []]
      ↔ 1024 ≤ reg.tracked_count) ∧
    ((track_process env pid reg).2 =
        [Out.printf (COLOR_RED ++ "Process %d not found\n" ++ COLOR_RESET) [Arg.int pid]]
      ↔ (reg.tracked_count < 1024 ∧ env.status pid = none)) ∧
    (1024 ≤ reg.tracked_count →
      ∀ env2 : Env, track_process env2 pid reg = track_process env pid reg) ∧
    ((1024 ≤ reg.tracked_count ∨ env.status pid = none) →
      (track_process env pid reg).1 = reg) := by
  unfold track_process
  simp only [MAX_PROCESS_COUNT, ge_iff_le]
  by_cases hc : 1024 ≤ reg.tracked_count
  · have hlt : ¬ reg.tracked_count < 1024 := by omega
    simp [hc, hlt]
  · have hlt : reg.tracked_count < 1024 := by omega
    cases hs : env.status pid with
    | none =>
      simp [hc, hlt]
    | some text =>
      simp [hc, hlt]

/-- Witness of C2 at an absent process. -/
theorem track_process_failure_witness :
    (track_process sample_env 2 Registry.init).1 = Registry.init :=
  (track_process_failure sample_env 2 Registry.init).2.2.2 (Or.inr rfl)

/-! ## Process control -/

/-- C6: `terminate_process` makes exactly one `kill` call, with `SIGKILL` when
the signal name is exactly "SIGKILL" and with `SIGTERM` for every other
name; it returns 0 exactly when that call returned 0, and -1 otherwise. -/
theorem terminate_process_signal (env : Env) (pid : Int) (s : List Char) :
    (terminate_process env pid s).2.filter Out.is_kill
      = [Out.kill pid (if s = "SIGKILL".toList then SIGKILL else SIGTERM)] ∧
    ((terminate_process env pid s).1 = 0
      ↔ env.kill pid (if s = "SIGKILL".toList then SIGKILL else SIGTERM) = 0) ∧
    ((terminate_process env pid s).1 ≠ 0 → (terminate_process env pid s).1 = -1) ∧
    (s = "SIGKILL".toList → (terminate_process env pid s).2.filter Out.is_kill
      = [Out.kill pid 9]) ∧
    (s ≠ "SIGKILL".toList → (terminate_process env pid s).2.filter Out.is_kill
      = [Out.kill pid 15]) := by
  unfold terminate_process strcmp_eq
  simp only [SIGKILL, SIGTERM, beq_iff_eq]
  generalize "SIGKILL".toList = k
  by_cases h1 : s = k
  · by_cases h2 : env.kill pid 9 = 0
    · simp [h1, h2, Out.is_kill]
    · simp [h1, h2, Out.is_kill]
  · by_cases h2 : env.kill pid 15 = 0
    · simp [h1, h2, Out.is_kill]
    · simp [h1, h2, Out.is_kill]

/-- Witness of C6: an unrecognised signal name sent to an absent process. -/
theorem terminate_process_signal_witness :
    (terminate_process sample_env 2 "SIGHUP".toList).2.filter Out.is_kill = [Out.kill 2 15] ∧
    (terminate_process sample_env 2 "SIGHUP".toList).1 = -1 :=
  ⟨(terminate_process_signal sample_env 2 "SIGHUP".toList).2.2.2.2 (by decide),
    (terminate_process_signal sample_env 2 "SIGHUP".toList).2.2.1 (by decide)⟩

/-! ## Process launcher -/

/-- C7: in the calling process `start_process` ends in one of three ways, fixed
by the result of `fork` and the wait status: "Fork failed" when `fork` is
negative, "completed with status c" with `c` the exit status when the child
exited normally, "terminated abnormally" otherwise.  The three reports differ
from each other, and reports of different exit statuses differ; a child that
exits with code `c` (wait status `256 * c`) is reported with `c`.  In the
forked child (`fork` returned 0) the function does not return. -/
theorem start_process_outcomes (env : Env) (command : List Char) :
    (env.fork < 0 → start_process env command = StartResult.returned (-1)
      [Out.printf (COLOR_RED ++ "Error: Fork failed\n" ++ COLOR_RESET) []]) ∧
    (0 < env.fork → WIFEXITED env.wait_status = true →
      start_process env command = StartResult.returned 0
        [Out.printf (COLOR_GREEN ++ "Process completed with status %d\n" ++ COLOR_RESET)
          [Arg.int (WEXITSTATUS env.wait_status)]]) ∧
    (0 < env.fork → WIFEXITED env.wait_status = false →
      start_process env command = StartResult.returned (-1)
        [Out.printf (COLOR_RED ++ "Process terminated abnormally\n" ++ COLOR_RESET) []]) ∧
    (env.fork = 0 → start_process env command =
      if env.exec_ok = true then StartResult.exec ["/bin/sh".toList, "-c".toList, command]
      else StartResult.child_exit 1
        [Out.printf (COLOR_RED ++ "Error: Command execution failed\n" ++ COLOR_RESET) []]) ∧
    (∀ c : Int, 0 ≤ c → c < 256 → env.wait_status = 256 * c →
      WIFEXITED env.wait_status = true ∧ WEXITSTATUS env.wait_status = c) ∧
    (∀ c d : Int,
      Out.printf (COLOR_GREEN ++ "Process completed with status %d\n" ++ COLOR_RESET) [Arg.int c]
        = Out.printf (COLOR_GREEN ++ "Process completed with status %d\n" ++ COLOR_RESET)
          [Arg.int d] → c = d) ∧
    (∀ c : Int,
      Out.printf (COLOR_GREEN ++ "Process completed with status %d\n" ++ COLOR_RESET) [Arg.int c]
        ≠ Out.printf (COLOR_RED ++ "Error: Fork failed\n" ++ COLOR_RESET) [] ∧
      Out.printf (COLOR_GREEN ++ "Process completed with status %d\n" ++ COLOR_RESET) [Arg.int c]
        ≠ Out.printf (COLOR_RED ++ "Process terminated abnormally\n" ++ COLOR_RESET) []) ∧
    Out.printf (COLOR_RED ++ "Error: Fork failed\n" ++ COLOR_RESET) []
      ≠ Out.printf (COLOR_RED ++ "Process terminated abnormally\n" ++ COLOR_RESET) [] := by
  refine ⟨?_, ?_, ?_, ?_, ?_, ?_, ?_, ?_⟩
  · intro h
    simp [start_process, h]
  · intro h hw
    have h1 : ¬ env.fork < 0 := by omega
    have h2 : env.fork ≠ 0 := by omega
    simp [start_process, h1, h2, hw]
  · intro h hw
    have h1 : ¬ env.fork < 0 := by omega
    have h2 : env.fork ≠ 0 := by omega
    simp [start_process, h1, h2, hw]
  · intro h
    simp [start_process, h]
  · intro c h0 h1 hs
    rw [hs]
    constructor
    · simp only [WIFEXITED, beq_iff_eq]
      show (256 * c) % 128 = 0
      omega
    · show ((256 * c) / 256) % 256 = c
      omega
  · intro c d h
    simpa using h
  · intro c
    simp
  · simp
    decide

/-- Witness of C7: a child that exits with code 1. -/
theorem start_process_outcomes_witness :
    start_process sample_env "false".toList = StartResult.returned 0
      [Out.printf (COLOR_GREEN ++ "Process completed with status %d\n" ++ COLOR_RESET)
        [Arg.int 1]] :=
  (start_process_outcomes sample_env "false".toList).2.1 (by decide) (by decide)

/-! ## Display of the tracked processes -/

theorem display_rows_length (env : Env) (now : Int) (reg : Registry) :
    (display_rows env now reg).length = reg.tracked_count.toNat := by
  unfold display_rows
  rw [List.length_map, List.length_range]

theorem display_rows_get (env : Env) (now : Int) (reg : Registry) (i : Nat)
    (h : i < reg.tracked_count.toNat) :
    (display_rows env now reg)[i]? = some (display_row env now (reg.tracked_processes i)) := by
  unfold display_rows
  rw [List.getElem?_map, List.getElem?_range h]
  rfl

theorem to_long_of_fits (v : Int) (h1 : -(2 ^ 63) ≤ v) (h2 : v < 2 ^ 63) : to_long v = v := by
  unfold to_long
  show (v + 2 ^ 63) % 2 ^ 64 - 2 ^ 63 = v
  omega

/-- Counterexample to C4 as stated: process 1 was tracked while sleeping and is
a zombie at the time of the call, yet no row showing `Z` is printed for it. -/
theorem display_state_is_not_reread :
    ¬ ∀ (env : Env) (reg : Registry) (i : Nat) (c : Char),
      i < reg.tracked_count.toNat →
      env.access_proc (reg.tracked_processes i).pid = true →
      current_state env (reg.tracked_processes i).pid = some c →
      Out.printf "%-8d %-15s %-10c %-15ld\n"
          [Arg.int (reg.tracked_processes i).pid, Arg.str (reg.tracked_processes i).name,
            Arg.chr c, Arg.long (to_long (env.time - (reg.tracked_processes i).start_time))]
        ∈ (display_tracked_processes env reg).2 := by
  intro h
  have h1 := h sample_env_zombie sample_tracked.reg 0 'Z' (by decide) rfl rfl
  revert h1
  decide

/-- C4, amended: after its three header lines `display_tracked_processes`
prints the row of entry `i` at position `i`; the row of an entry whose
`/proc/<pid>` exists shows the state character stored in the entry when
tracking began, and the row of an entry whose `/proc/<pid>` does not exist
shows ENDED; what is displayed depends on the operating system only through
the existence checks and the clock, not through the contents of any status
file. -/
theorem display_row_liveness (env : Env) (reg : Registry) (i : Nat)
    (h : i < reg.tracked_count.toNat) :
    ((display_tracked_processes env reg).2.drop 3)[i]?
      = some (display_row env env.time (reg.tracked_processes i)) ∧
    (env.access_proc (reg.tracked_processes i).pid = true →
      display_row env env.time (reg.tracked_processes i) =
        Out.printf "%-8d %-15s %-10c %-15ld\n"
          [Arg.int (reg.tracked_processes i).pid, Arg.str (reg.tracked_processes i).name,
            Arg.chr (reg.tracked_processes i).state,
            Arg.long (to_long (env.time - (reg.tracked_processes i).start_time))]) ∧
    (env.access_proc (reg.tracked_processes i).pid = false →
      display_row env env.time (reg.tracked_processes i) =
        Out.printf "%-8d %-15s %-10s %-15s\n"
          [Arg.int (reg.tracked_processes i).pid, Arg.str (reg.tracked_processes i).name,
            Arg.str "ENDED".toList, Arg.str "-".toList]) ∧
    (∀ env2 : Env, env2.access_proc = env.access_proc → env2.time = env.time →
      display_tracked_processes env2 reg = display_tracked_processes env reg) := by
  have hne : reg.tracked_count ≠ 0 := by
    intro h0
    rw [h0] at h
    exact Nat.not_lt_zero i h
  have hd : (display_tracked_processes env reg).2.drop 3 = display_rows env env.time reg := by
    simp [display_tracked_processes, hne]
  refine ⟨by rw [hd]; exact display_rows_get env env.time reg i h, ?_, ?_, ?_⟩
  · intro ha
    simp [display_row, ha]
  · intro ha
    simp [display_row, ha]
  · intro env2 h1 h2
    simp [display_tracked_processes, display_rows, display_row, h1, h2]

/-- Witness of C4, amended: the zombie is shown with the state `S` it had
when tracking began. -/
theorem display_row_liveness_witness :
    ((display_tracked_processes sample_env_zombie sample_tracked.reg).2.drop 3)[0]? =
      some (Out.printf "%-8d %-15s %-10c %-15ld\n"
        [Arg.int 1, Arg.str "init".toList, Arg.chr 'S', Arg.long 60]) := by
  have h := display_row_liveness sample_env_zombie sample_tracked.reg 0 (by decide)
  exact h.1.trans (congrArg some (h.2.1 rfl))

/-- Counterexample to C5 as stated: the row of an entry whose process is gone
does not carry the elapsed seconds. -/
theorem display_ended_row_has_no_elapsed :
    ¬ ∀ (env : Env) (reg : Registry) (i : Nat), i < reg.tracked_count.toNat →
      ∃ row, (display_rows env env.time reg)[i]? = some row ∧
        Arg.long (env.time - (reg.tracked_processes i).start_time) ∈ row.args := by
  intro h
  obtain ⟨row, h1, h2⟩ := h sample_env_gone sample_tracked.reg 0 (by decide)
  have h3 : (display_rows sample_env_gone sample_env_gone.time sample_tracked.reg)[0]? =
      some (Out.printf "%-8d %-15s %-10s %-15s\n"
        [Arg.int 1, Arg.str "init".toList, Arg.str "ENDED".toList, Arg.str "-".toList]) := by
    decide
  rw [h3] at h1
  injection h1 with h1
  subst h1
  revert h2
  decide

/-- C5, amended: `display_tracked_processes` leaves the registry unchanged and
prints one row per entry, in the order of the indices 0 to `tracked_count - 1`.
The row of an entry whose `/proc/<pid>` exists consists of its pid, its name,
its stored state character and the elapsed seconds `now - start_time`; the
row of an entry whose `/proc/<pid>` does not exist consists of its pid, its
name, "ENDED" and "-" in place of the elapsed seconds.  For a fixed entry the
elapsed value does not decrease when `now` grows, as long as the differences
fit a `long`. -/
theorem display_rows_view (env : Env) (reg : Registry) :
    (display_tracked_processes env reg).1 = reg ∧
    (display_rows env env.time reg).length = reg.tracked_count.toNat ∧
    (reg.tracked_count = 0 → (display_tracked_processes env reg).2 =
      [Out.printf (COLOR_YELLOW ++ "No processes being tracked\n" ++ COLOR_RESET) []]) ∧
    (reg.tracked_count ≠ 0 → (display_tracked_processes env reg).2.drop 3 =
      display_rows env env.time reg) ∧
    (∀ i : Nat, i < reg.tracked_count.toNat →
      (display_rows env env.time reg)[i]? = some
        (if env.access_proc (reg.tracked_processes i).pid = true then
          Out.printf "%-8d %-15s %-10c %-15ld\n"
            [Arg.int (reg.tracked_processes i).pid, Arg.str (reg.tracked_processes i).name,
              Arg.chr (reg.tracked_processes i).state,
              Arg.long (to_long (env.time - (reg.tracked_processes i).start_time))]
        else
          Out.printf "%-8d %-15s %-10s %-15s\n"
            [Arg.int (reg.tracked_processes i).pid, Arg.str (reg.tracked_processes i).name,
              Arg.str "ENDED".toList, Arg.str "-".toList])) ∧
    (∀ start now now2 : Int, -(2 ^ 63) ≤ now - start → now2 - start < 2 ^ 63 → now ≤ now2 →
      to_long (now - start) = now - start ∧ to_long (now2 - start) = now2 - start ∧
      to_long (now - start) ≤ to_long (now2 - start)) := by
  refine ⟨?_, display_rows_length env env.time reg, ?_, ?_, ?_, ?_⟩
  · unfold display_tracked_processes
    split <;> rfl
  · intro h
    simp [display_tracked_processes, h]
  · intro h
    simp [display_tracked_processes, h]
  · intro i hi
    rw [display_rows_get env env.time reg i hi]
    rfl
  · intro start now now2 h1 h2 h3
    have e1 : to_long (now - start) = now - start := to_long_of_fits _ h1 (by omega)
    have e2 : to_long (now2 - start) = now2 - start := to_long_of_fits _ (by omega) h2
    refine ⟨e1, e2, ?_⟩
    rw [e1, e2]
    omega

/-- Witness of C5, amended: one live row with 60 elapsed seconds. -/
theorem display_rows_view_witness :
    (display_tracked_processes sample_env_zombie sample_tracked.reg).2.drop 3 =
      display_rows sample_env_zombie 160 sample_tracked.reg ∧
    (display_rows sample_env_zombie 160 sample_tracked.reg)[0]? =
      some (Out.printf "%-8d %-15s %-10c %-15ld\n"
        [Arg.int 1, Arg.str "init".toList, Arg.chr 'S', Arg.long 60]) ∧
    to_long (160 - 100) ≤ to_long (170 - 100) :=
  ⟨(display_rows_view sample_env_zombie sample_tracked.reg).2.2.2.1 (by decide),
    (display_rows_view sample_env_zombie sample_tracked.reg).2.2.2.2.1 0 (by decide),
    ((display_rows_view sample_env_zombie sample_tracked.reg).2.2.2.2.2 100 160 170
      (by decide) (by decide) (by decide)).2.2⟩

/-! ## The menu loop -/

theorem clear_input_no_newline (fuel : Nat) (s : List Char) (h : '\n' ∉ s) :
    clear_input fuel s = none := by
  induction fuel generalizing s with
  | zero => rfl
  | succ n ih =>
    cases s with
    | nil => exact ih [] h
    | cons c r =>
      have hc : c ≠ '\n' := fun e => h (by simp [e])
      have hr : '\n' ∉ r := fun e => h (by simp [e])
      simp only [clear_input, hc, if_false]
      exact ih r hr

theorem clear_input_newline (fuel : Nat) (s : List Char) (h : '\n' ∈ s) (hf : s.length ≤ fuel) :
    ∃ r, clear_input fuel s = some r := by
  induction s generalizing fuel with
  | nil => simp at h
  | cons c r ih =>
    cases fuel with
    | zero => simp at hf
    | succ n =>
      by_cases hc : c = '\n'
      · exact ⟨r, by simp [clear_input, hc]⟩
      · have hr : '\n' ∈ r := by
          rcases List.mem_cons.mp h with e | e
          · exact absurd e.symm hc
          · exact e
        obtain ⟨r2, h2⟩ := ih n hr (by simpa using hf)
        exact ⟨r2, by simp [clear_input, hc, h2]⟩

theorem mem_of_mem_dropWhile (p : Char → Bool) (s : List Char) (c : Char)
    (h : c ∈ s.dropWhile p) : c ∈ s :=
  (List.dropWhile_sublist p).subset h

theorem scan_d_rest_subset (s : List Char) (c : Char) (h : c ∈ (scan_d s).2) : c ∈ s := by
  unfold scan_d at h
  split at h
  · simp at h
  · rename_i a r heq
    have hs : ∀ x, x ∈ a :: r → x ∈ s := fun x hx => by
      unfold skip_space at heq
      exact mem_of_mem_dropWhile _ _ _ (heq ▸ hx)
    split at h
    · split at h
      · exact hs c (List.mem_cons_of_mem _ h)
      · exact hs c (List.mem_cons_of_mem _ (mem_of_mem_dropWhile _ _ _ h))
    · split at h
      · split at h
        · exact hs c (List.mem_cons_of_mem _ h)
        · exact hs c (List.mem_cons_of_mem _ (mem_of_mem_dropWhile _ _ _ h))
      · split at h
        · exact hs c h
        · exact hs c (mem_of_mem_dropWhile _ _ _ h)

/-- When no newline is left on standard input, an iteration of the menu loop
does not end, whatever is typed and however many characters are requested. -/
theorem main_iteration_no_newline (env : Env) (fuel : Nat) (st : MainState)
    (h : '\n' ∉ st.stdin) : main_iteration env fuel st = none := by
  have hr : '\n' ∉ (scan_d st.stdin).2 := fun e => h (scan_d_rest_subset _ _ e)
  have hc := clear_input_no_newline fuel _ hr
  unfold main_iteration
  split
  · rename_i s1 heq
    rw [heq] at hc
    simp [hc]
  · rename_i choice s1 heq
    rw [heq] at hc
    simp [hc]

/-- When the menu choice is not a number and a newline follows, the iteration
ends: it prints the menu and an error, keeps the registry, and the loop goes
on. -/
theorem main_iteration_not_a_number (env : Env) (st : MainState)
    (h1 : (scan_d st.stdin).1 = none) (h2 : '\n' ∈ (scan_d st.stdin).2) :
    ∃ fuel rest, main_iteration env fuel st = some (Step.next ⟨st.reg, rest, st.input⟩
      (display_menu ++
        [Out.printf (COLOR_RED ++ "Invalid input. Please enter a number.\n" ++ COLOR_RESET) []])) := by
  obtain ⟨r, hr⟩ := clear_input_newline _ _ h2 (le_refl _)
  generalize (scan_d st.stdin).2.length = fuel at hr
  refine ⟨fuel, r, ?_⟩
  unfold main_iteration
  split
  · rename_i s1 heq
    rw [heq] at hr
    simp [hr]
  · rename_i choice s1 heq
    rw [heq] at h1
    simp at h1

/-- When the menu choice is a number outside 1 to 8 and a newline follows,
the iteration ends: it prints the menu and an error, keeps the registry, and
the loop goes on. -/
theorem main_iteration_out_of_range (env : Env) (st : MainState) (choice : Int)
    (h1 : (scan_d st.stdin).1 = some choice) (h2 : '\n' ∈ (scan_d st.stdin).2)
    (h3 : choice < 1 ∨ 8 < choice) :
    ∃ fuel rest, main_iteration env fuel st = some (Step.next ⟨st.reg, rest, st.input⟩
      (display_menu ++
        [Out.printf (COLOR_RED ++ "Invalid choice. Please try again.\n" ++ COLOR_RESET) []])) := by
  obtain ⟨r, hr⟩ := clear_input_newline _ _ h2 (le_refl _)
  generalize (scan_d st.stdin).2.length = fuel at hr
  refine ⟨fuel, r, ?_⟩
  unfold main_iteration
  split
  · rename_i s1 heq
    rw [heq] at h1
    simp at h1
  · rename_i c s1 heq
    rw [heq] at hr h1
    simp only [Option.some.injEq] at h1
    subst h1
    have e1 : c ≠ 1 := by omega
    have e2 : c ≠ 2 := by omega
    have e3 : c ≠ 3 := by omega
    have e4 : c ≠ 4 := by omega
    have e5 : c ≠ 5 := by omega
    have e6 : c ≠ 6 := by omega
    have e7 : c ≠ 7 := by omega
    have e8 : c ≠ 8 := by omega
    simp [hr, e1, e2, e3, e4, e5, e6, e7, e8]

/-- C9 at the input `abc` followed by end of input: the iteration of the menu
loop never gets past `while (getchar() != '\n')`, whatever the number of
`getchar` calls allowed. -/
theorem menu_loop_hangs_at_end_of_input (fuel : Nat) :
    main_iteration sample_env fuel ⟨Registry.init, "abc".toList, []⟩ = none :=
  main_iteration_no_newline sample_env fuel ⟨Registry.init, "abc".toList, []⟩ (by decide)

/-! ## Listing of /proc -/

/-- Outside the form of the names in `/proc` the guard of `list_processes` is
wider than "purely numeric": it reads the first character only, so an entry
named `1abc`, if there were one, would give the row of process 1. -/
theorem list_entry_reads_first_character :
    list_entry sample_env "1abc".toList = list_entry sample_env "1".toList ∧
    list_entry sample_env "1abc".toList ≠ [] := by
  decide

theorem fgets_take_line (body rest : List Char) (k : Nat) (h1 : '\n' ∉ body)
    (h2 : body.length < k) :
    fgets_take k (body ++ '\n' :: rest) = (body ++ ['\n'], rest) := by
  induction body generalizing k with
  | nil =>
    cases k with
    | zero => simp at h2
    | succ n => simp [fgets_take]
  | cons a b ih =>
    cases k with
    | zero => simp at h2
    | succ n =>
      have ha : a ≠ '\n' := fun e => h1 (by simp [e])
      have hb : '\n' ∉ b := fun e => h1 (by simp [e])
      have hl : b.length < n := by simpa using h2
      simp [fgets_take, ha, ih n hb hl]

theorem line_ok_body (l : List Char) (h : line_ok l = true) :
    l = l.dropLast ++ ['\n'] ∧ '\n' ∉ l.dropLast ∧ Char.ofNat 0 ∉ l.dropLast ∧
      l.dropLast.length ≤ 254 := by
  unfold line_ok at h
  simp only [Bool.and_eq_true, beq_iff_eq, List.all_eq_true, bne_iff_ne, ne_eq,
    decide_eq_true_eq] at h
  obtain ⟨⟨h1, h2⟩, h3⟩ := h
  have e : l.dropLast ++ ['\n'] = l := List.dropLast_append_getLast? _ (by simp [h1])
  refine ⟨e.symm, fun hm => (h2 _ hm).1 rfl, fun hm => (h2 _ hm).2 rfl, ?_⟩
  simp only [List.length_dropLast]
  omega

theorem cstr_of_line_ok (l : List Char) (h : line_ok l = true) : cstr l = l := by
  obtain ⟨e, _, h0, _⟩ := line_ok_body l h
  unfold cstr
  apply List.takeWhile_eq_self_iff.mpr
  intro c hc
  rw [e] at hc
  simp only [bne_iff_ne, ne_eq]
  rcases List.mem_append.mp hc with h1 | h1
  · intro e0
    exact h0 (e0 ▸ h1)
  · simp only [List.mem_singleton] at h1
    rw [h1]
    decide

theorem read_lines_flatten (lines : List (List Char)) (fuel : Nat)
    (h : ∀ l ∈ lines, line_ok l = true) (hf : lines.length ≤ fuel) :
    read_lines fuel lines.flatten = lines := by
  induction lines generalizing fuel with
  | nil =>
    cases fuel with
    | zero => rfl
    | succ n => rfl
  | cons l ls ih =>
    cases fuel with
    | zero => simp at hf
    | succ n =>
      obtain ⟨e, h1, _, h3⟩ := line_ok_body l (h l (by simp))
      have hls : ∀ x ∈ ls, line_ok x = true := fun x hx => h x (by simp [hx])
      have hn : ls.length ≤ n := by simpa using hf
      have hs : (l :: ls).flatten = l.dropLast ++ '\n' :: ls.flatten := by
        rw [List.flatten_cons]
        nth_rewrite 1 [e]
        simp
      rw [hs]
      have hg : fgets 256 (l.dropLast ++ '\n' :: ls.flatten) =
          some (l.dropLast ++ ['\n'], ls.flatten) := by
        have ht := fgets_take_line l.dropLast ls.flatten 255 h1 (by omega)
        cases hd : l.dropLast with
        | nil => rw [hd] at ht; simpa [fgets] using ht
        | cons a b => rw [hd] at ht; simpa [fgets] using ht
      simp only [read_lines, hg]
      rw [ih n hls hn, ← e]

theorem length_le_flatten (lines : List (List Char)) (h : ∀ l ∈ lines, line_ok l = true) :
    lines.length ≤ lines.flatten.length := by
  induction lines with
  | nil => simp
  | cons l ls ih =>
    have hls : ∀ x ∈ ls, line_ok x = true := fun x hx => h x (by simp [hx])
    obtain ⟨e, _⟩ := line_ok_body l (h l (by simp))
    have hl : 1 ≤ l.length := by
      rw [e]
      simp
    have := ih hls
    simp only [List.flatten_cons, List.length_append, List.length_cons]
    omega

theorem file_lines_flatten (lines : List (List Char)) (h : ∀ l ∈ lines, line_ok l = true) :
    file_lines lines.flatten = lines :=
  read_lines_flatten lines _ h (length_le_flatten lines h)

theorem fgets_take_append (k : Nat) (s : List Char) :
    (fgets_take k s).1 ++ (fgets_take k s).2 = s := by
  induction k generalizing s with
  | zero => simp [fgets_take]
  | succ n ih =>
    cases s with
    | nil => simp [fgets_take]
    | cons c r =>
      by_cases hc : c = '\n'
      · simp [fgets_take, hc]
      · simp [fgets_take, hc, ih r]

theorem fgets_take_rest_length (k : Nat) (c : Char) (r : List Char) :
    (fgets_take (k + 1) (c :: r)).2.length ≤ r.length := by
  by_cases hc : c = '\n'
  · simp [fgets_take, hc]
  · simp only [fgets_take, hc, if_false]
    have h := congrArg List.length (fgets_take_append k r)
    simp only [List.length_append] at h
    omega

/-- The loop `while (fgets ...)` reads every character of the file: the
buffers it sees, put end to end, are the text. -/
theorem read_lines_covers (fuel : Nat) (text : List Char) (h : text.length ≤ fuel) :
    (read_lines fuel text).flatten = text := by
  induction fuel generalizing text with
  | zero =>
    have : text = [] := List.length_eq_zero.mp (by omega)
    subst this
    rfl
  | succ n ih =>
    cases text with
    | nil => rfl
    | cons c r =>
      have hl : (fgets_take 255 (c :: r)).2.length ≤ r.length := fgets_take_rest_length 254 c r
      have hr : (fgets_take 255 (c :: r)).2.length ≤ n := by
        simp only [List.length_cons] at h
        omega
      simp only [read_lines, fgets, List.flatten_cons]
      rw [ih _ hr]
      exact fgets_take_append 255 (c :: r)

theorem read_lines_fuel (f g : Nat) (s : List Char) (hf : s.length ≤ f) (hg : s.length ≤ g) :
    read_lines f s = read_lines g s := by
  induction f generalizing g s with
  | zero =>
    have : s = [] := List.length_eq_zero.mp (by omega)
    subst this
    cases g <;> rfl
  | succ n ih =>
    cases s with
    | nil => cases g <;> rfl
    | cons c r =>
      cases g with
      | zero => simp at hg
      | succ m =>
        have hl : (fgets_take (256 - 1) (c :: r)).2.length ≤ r.length :=
          fgets_take_rest_length 254 c r
        simp only [List.length_cons] at hf hg
        simp only [read_lines, fgets]
        rw [ih m _ (by omega) (by omega)]

theorem file_lines_nil : file_lines [] = [] := rfl

theorem file_lines_cons (c : Char) (r : List Char) :
    file_lines (c :: r) =
      (fgets_take 255 (c :: r)).1 :: file_lines (fgets_take 255 (c :: r)).2 := by
  have hl : (fgets_take (256 - 1) (c :: r)).2.length ≤ r.length :=
    fgets_take_rest_length 254 c r
  unfold file_lines
  simp only [List.length_cons, read_lines, fgets]
  rw [read_lines_fuel r.length _ _ hl (le_refl _)]

theorem fgets_take_full (b t : List Char) (k : Nat) (h1 : '\n' ∉ b) (h2 : b.length = k) :
    fgets_take k (b ++ t) = (b, t) := by
  induction b generalizing k with
  | nil =>
    simp only [List.length_nil] at h2
    subst h2
    simp [fgets_take]
  | cons a r ih =>
    cases k with
    | zero => simp at h2
    | succ n =>
      have ha : a ≠ '\n' := fun e => h1 (by simp [e])
      have hr : '\n' ∉ r := fun e => h1 (by simp [e])
      have hl : r.length = n := by simpa using h2
      simp [fgets_take, ha, ih n hr hl]

theorem file_lines_line_append (n : Nat) (body rest : List Char) (hn : body.length ≤ n)
    (h : '\n' ∉ body) :
    file_lines (body ++ '\n' :: rest) = file_lines (body ++ ['\n']) ++ file_lines rest := by
  induction n using Nat.strong_induction_on generalizing body with
  | _ n ih =>
    by_cases hs : body.length < 255
    · have e1 := fgets_take_line body rest 255 h hs
      have e2 := fgets_take_line body [] 255 h hs
      cases hb : body ++ '\n' :: rest with
      | nil => simp at hb
      | cons c r =>
        cases hb2 : body ++ ['\n'] with
        | nil => simp at hb2
        | cons c2 r2 =>
          rw [hb] at e1
          rw [show body ++ ['\n'] = body ++ '\n' :: [] from rfl] at hb2
          rw [hb2] at e2
          rw [file_lines_cons, file_lines_cons, e1, e2]
          simp [file_lines_nil, hb2]
    · have hsplit : body = body.take 255 ++ body.drop 255 := (List.take_append_drop 255 body).symm
      have ht : '\n' ∉ body.take 255 := fun e => h (List.mem_of_mem_take e)
      have hd : '\n' ∉ body.drop 255 := fun e => h (List.mem_of_mem_drop e)
      have hlen : (body.take 255).length = 255 := by
        rw [List.length_take]
        omega
      have hdl : (body.drop 255).length < n := by
        rw [List.length_drop]
        omega
      have e1 := fgets_take_full (body.take 255) (body.drop 255 ++ '\n' :: rest) 255 ht hlen
      have e2 := fgets_take_full (body.take 255) (body.drop 255 ++ ['\n']) 255 ht hlen
      have a1 : body ++ '\n' :: rest = body.take 255 ++ (body.drop 255 ++ '\n' :: rest) := by
        rw [← List.append_assoc, ← hsplit]
      have a2 : body ++ ['\n'] = body.take 255 ++ (body.drop 255 ++ ['\n']) := by
        rw [← List.append_assoc, ← hsplit]
      have ih2 := ih (body.drop 255).length hdl (body.drop 255) (le_refl _) hd
      rw [a1, a2]
      cases hb : body.take 255 with
      | nil => rw [hb] at hlen; simp at hlen
      | cons c r =>
        rw [hb] at e1 e2
        simp only [List.cons_append]
        simp only [List.cons_append] at e1 e2
        rw [file_lines_cons, file_lines_cons, e1, e2, ih2]
        simp

theorem line_nl_body (l : List Char) (h : line_nl l = true) :
    l = l.dropLast ++ ['\n'] ∧ '\n' ∉ l.dropLast := by
  unfold line_nl at h
  simp only [Bool.and_eq_true, beq_iff_eq, List.all_eq_true, bne_iff_ne, ne_eq] at h
  obtain ⟨h1, h2⟩ := h
  have e : l.dropLast ++ ['\n'] = l := List.dropLast_append_getLast? _ (by simp [h1])
  exact ⟨e.symm, fun hm => h2 _ hm rfl⟩

/-- The call `fgets` never reads across a newline: the buffers of a text are
the buffers of its lines, line after line. -/
theorem file_lines_lines (lines : List (List Char)) (h : ∀ l ∈ lines, line_nl l = true) :
    file_lines lines.flatten = (lines.map file_lines).flatten := by
  induction lines with
  | nil => rfl
  | cons l ls ih =>
    have hls : ∀ x ∈ ls, line_nl x = true := fun x hx => h x (by simp [hx])
    obtain ⟨e, hb⟩ := line_nl_body l (h l (by simp))
    have hs : (l :: ls).flatten = l.dropLast ++ '\n' :: ls.flatten := by
      rw [List.flatten_cons]
      nth_rewrite 1 [e]
      simp
    rw [hs, file_lines_line_append _ _ _ (le_refl _) hb, ← e, ih hls]
    simp

theorem file_lines_single (l : List Char) (h : line_ok l = true) : file_lines l = [l] := by
  have := file_lines_flatten [l] (by simpa using h)
  simpa using this

/-! ## Process details -/

theorem details_line_eq (l : List Char) :
    details_line l =
      if details_field (cstr l) then [Out.printf "%s" [Arg.str (cstr l)]] else [] := rfl

theorem details_lines (lines : List (List Char)) (h : ∀ l ∈ lines, line_ok l = true) :
    (lines.map details_line).flatten =
      (lines.filter details_field).map (fun l => Out.printf "%s" [Arg.str l]) := by
  induction lines with
  | nil => rfl
  | cons l ls ih =>
    have hls : ∀ x ∈ ls, line_ok x = true := fun x hx => h x (by simp [hx])
    have hc : cstr l = l := cstr_of_line_ok l (h l (by simp))
    rw [List.map_cons, List.flatten_cons, ih hls, details_line_eq, hc]
    by_cases hf : details_field l = true
    · simp [hf]
    · simp [hf]

set_option maxRecDepth 100000 in
/-- Counterexample to C10 as stated: a line that begins with `Uid:` is not
printed. -/
theorem details_omit_uid :
    ¬ ∀ (env : Env) (pid : Int) (lines : List (List Char)),
      (∀ l ∈ lines, line_ok l = true) → env.status pid = some lines.flatten →
      ∀ l ∈ lines, begins_with "Uid:" l = true →
        Out.printf "%s" [Arg.str l] ∈ get_process_details env pid := by
  intro h
  have h1 := h sample_env_web 1 sample_status (by decide) rfl
    "Uid:\t1000\t1000\t1000\t1000\n".toList (by decide) (by decide)
  revert h1
  decide

theorem details_buffers (bufs : List (List Char)) :
    (bufs.map details_line).flatten =
      ((bufs.map cstr).filter details_field).map (fun l => Out.printf "%s" [Arg.str l]) := by
  induction bufs with
  | nil => rfl
  | cons l ls ih =>
    rw [List.map_cons, List.flatten_cons, ih, details_line_eq, List.map_cons]
    cases hf : details_field (cstr l)
    · simp [hf]
    · simp [hf]

theorem details_buffers_flatten (ls : List (List (List Char))) :
    ((ls.flatten.map cstr).filter details_field).map (fun l => Out.printf "%s" [Arg.str l]) =
      (ls.map (fun bufs => ((bufs.map cstr).filter details_field).map
        (fun l => Out.printf "%s" [Arg.str l]))).flatten := by
  induction ls with
  | nil => rfl
  | cons x xs ih =>
    simp only [List.flatten_cons, List.map_append, List.filter_append, List.map_cons]
    rw [ih]

/-- C10, amended: for every readable status text `get_process_details` prints,
after its two header lines and in their original order, exactly the lines, as
`fgets(line, 256, fp)` delivers them and up to their first NUL, that begin
with one of the seven keys Name:, State:, Pid:, PPid:, VmSize:, VmRSS:,
Threads: (a line beginning with Uid: is not among them), followed by the
command line when there is one; no key has to be present.  The call `fgets`
delivers a text made of newline-terminated lines line by line, a line of at
most 255 characters whole and a longer one in pieces; so for a text made of
lines of at most 255 characters without NUL the lines printed are exactly the
lines that begin with one of the seven keys.  When the status file cannot be opened it prints one error
message and nothing else. -/
theorem get_process_details_fields (env : Env) (pid : Int) :
    (env.status pid = none → get_process_details env pid =
      [Out.printf (COLOR_RED ++ "Unable to get details for process %d\n" ++ COLOR_RESET)
        [Arg.int pid]]) ∧
    (∀ text : List Char, env.status pid = some text →
      get_process_details env pid =
        [Out.printf (COLOR_YELLOW ++ "\nProcess Details for PID %d:\n" ++ COLOR_RESET)
            [Arg.int pid],
          Out.printf "----------------------------------------\n" []]
        ++ (((file_lines text).map cstr).filter details_field).map
            (fun l => Out.printf "%s" [Arg.str l])
        ++ details_cmdline env pid) ∧
    (∀ lines : List (List Char), (∀ l ∈ lines, line_nl l = true) →
      env.status pid = some lines.flatten →
      get_process_details env pid =
        [Out.printf (COLOR_YELLOW ++ "\nProcess Details for PID %d:\n" ++ COLOR_RESET)
            [Arg.int pid],
          Out.printf "----------------------------------------\n" []]
        ++ (lines.map (fun l => (((file_lines l).map cstr).filter details_field).map
            (fun b => Out.printf "%s" [Arg.str b]))).flatten
        ++ details_cmdline env pid ∧
      (∀ l ∈ lines, line_ok l = true → file_lines l = [l] ∧ cstr l = l)) ∧
    (∀ lines : List (List Char), (∀ l ∈ lines, line_ok l = true) →
      env.status pid = some lines.flatten →
      get_process_details env pid =
        [Out.printf (COLOR_YELLOW ++ "\nProcess Details for PID %d:\n" ++ COLOR_RESET)
            [Arg.int pid],
          Out.printf "----------------------------------------\n" []]
        ++ (lines.filter details_field).map (fun l => Out.printf "%s" [Arg.str l])
        ++ details_cmdline env pid) := by
  refine ⟨?_, ?_, ?_, ?_⟩
  · intro h
    simp only [get_process_details, h]
  · intro text hs
    simp only [get_process_details, hs]
    rw [details_buffers]
  · intro lines hl hs
    refine ⟨?_, fun l _ hok => ⟨file_lines_single l hok, cstr_of_line_ok l hok⟩⟩
    simp only [get_process_details, hs]
    rw [details_buffers, file_lines_lines lines hl, details_buffers_flatten, List.map_map]
    rfl
  · intro lines hl hs
    simp only [get_process_details, hs]
    rw [file_lines_flatten lines hl, details_lines lines hl]

set_option maxRecDepth 100000 in
/-- Witness of C10, amended, on a status text with a line of 302 characters:
the six lines with a recognised key are printed and nothing else. -/
theorem get_process_details_fields_witness :
    get_process_details sample_env_long 1 =
      [Out.printf (COLOR_YELLOW ++ "\nProcess Details for PID %d:\n" ++ COLOR_RESET) [Arg.int 1],
        Out.printf "----------------------------------------\n" [],
        Out.printf "%s" [Arg.str "Name:\tWeb Content\n".toList],
        Out.printf "%s" [Arg.str "State:\tS (sleeping)\n".toList],
        Out.printf "%s" [Arg.str "Pid:\t1\n".toList],
        Out.printf "%s" [Arg.str "PPid:\t0\n".toList],
        Out.printf "%s" [Arg.str "VmSize:\t  2400 kB\n".toList],
        Out.printf "%s" [Arg.str "Threads:\t4\n".toList]] ∧
    get_process_details sample_env_web 1 =
      [Out.printf (COLOR_YELLOW ++ "\nProcess Details for PID %d:\n" ++ COLOR_RESET) [Arg.int 1],
        Out.printf "----------------------------------------\n" []]
      ++ (sample_status.filter details_field).map (fun l => Out.printf "%s" [Arg.str l])
      ++ details_cmdline sample_env_web 1 ∧
    get_process_details sample_env_web 2 =
      [Out.printf (COLOR_RED ++ "Unable to get details for process %d\n" ++ COLOR_RESET)
        [Arg.int 2]] :=
  ⟨((get_process_details_fields sample_env_long 1).2.1 sample_status_long.flatten rfl).trans
      (by decide),
    (get_process_details_fields sample_env_web 1).2.2.2 sample_status (by decide) rfl,
    (get_process_details_fields sample_env_web 2).1 rfl⟩

/-! ## Supporting lemmas: the fields `track_process` reads -/

theorem match_literal_of_take (k l : List Char) (h : l.take k.length = k) :
    match_literal k l = some (l.drop k.length) := by
  induction k generalizing l with
  | nil => rfl
  | cons a r ih =>
    cases l with
    | nil => simp at h
    | cons b t =>
      simp only [List.length_cons, List.take_succ_cons, List.cons.injEq] at h
      obtain ⟨h1, h2⟩ := h
      subst h1
      simp only [match_literal, if_true, List.length_cons, List.drop_succ_cons]
      exact ih t h2

theorem skip_space_idem (s : List Char) : skip_space (skip_space s) = skip_space s := by
  unfold skip_space
  induction s with
  | nil => rfl
  | cons a r ih =>
    by_cases ha : isspace a = true
    · simp only [List.dropWhile_cons, ha, if_true]
      exact ih
    · simp only [List.dropWhile_cons, ha, if_false]
      simp [List.dropWhile_cons, ha]

theorem skip_space_head (s : List Char) (c : Char) (r : List Char)
    (h : skip_space s = c :: r) : isspace c = false := by
  unfold skip_space at h
  have := List.head_dropWhile_not isspace s (by rw [h]; simp)
  simpa [h] using this

theorem takeWhile_line_word (s : List Char) :
    (s.takeWhile (fun c => c != '\n')).takeWhile (fun c => !isspace c)
      = s.takeWhile (fun c => !isspace c) := by
  induction s with
  | nil => rfl
  | cons a r ih =>
    by_cases ha : a = '\n'
    · subst ha
      simp [List.takeWhile_cons, isspace]
    · simp only [List.takeWhile_cons, bne_iff_ne, ne_eq, ha, not_false_eq_true, decide_True,
        if_true]
      by_cases hs : isspace a = true
      · simp [hs]
      · simp [hs, ih]

/-- What `sscanf(line, "Name: %255s", ...)` stores, in terms of the value of
the line. -/
theorem sscanf_s_value (key : String) (l : List Char) (h1 : begins_with key l = true)
    (h2 : field_value key l ≠ []) :
    sscanf_s key 255 l = some ((first_word (field_value key l)).take 255) := by
  unfold begins_with at h1
  simp only [beq_iff_eq] at h1
  have hk : key.length = key.toList.length := rfl
  rw [hk] at h1
  unfold sscanf_s
  rw [match_literal_of_take _ _ h1]
  simp only [Option.some_bind]
  unfold field_value at h2 ⊢
  rw [hk] at h2 ⊢
  unfold scan_ws first_word
  rw [skip_space_idem]
  cases hsk : skip_space (List.drop key.toList.length l) with
  | nil => rw [hsk] at h2; exact absurd rfl h2
  | cons c r =>
    simp only []
    rw [takeWhile_line_word]

/-- What `sscanf(line, "State: %c", ...)` stores, in terms of the value of
the line. -/
theorem sscanf_c_value (key : String) (l : List Char) (h1 : begins_with key l = true)
    (h2 : field_value key l ≠ []) :
    sscanf_c key l = (field_value key l).head? := by
  unfold begins_with at h1
  simp only [beq_iff_eq] at h1
  have hk : key.length = key.toList.length := rfl
  rw [hk] at h1
  unfold sscanf_c
  rw [match_literal_of_take _ _ h1]
  simp only [Option.some_bind]
  unfold field_value at h2 ⊢
  rw [hk] at h2 ⊢
  cases hsk : skip_space (List.drop key.toList.length l) with
  | nil => rw [hsk] at h2; exact absurd rfl h2
  | cons c r =>
    have hc : isspace c = false := skip_space_head _ c r hsk
    have hn : c ≠ '\n' := fun e => by rw [e] at hc; revert hc; decide
    simp [scan_c, List.takeWhile_cons, hn]

theorem not_state_of_name (l : List Char) (h : begins_with "Name:" l = true) :
    begins_with "State:" l = false := by
  cases l with
  | nil => revert h; decide
  | cons a r =>
    have e1 : begins_with "Name:" (a :: r) = ((a :: r.take 4) == "Name:".toList) := rfl
    have e2 : begins_with "State:" (a :: r) = ((a :: r.take 5) == "State:".toList) := rfl
    rw [e1] at h
    rw [e2]
    simp only [beq_iff_eq] at h
    have ha : a = 'N' := (List.cons.inj h).1
    subst ha
    simp only [beq_eq_false_iff_ne, ne_eq]
    intro hc
    have := (List.cons.inj hc).1
    revert this
    decide

theorem track_line_name (p : ProcessInfo) (l : List Char) :
    (track_line p l).name =
      if begins_with "Name:" (cstr l) = true
      then (sscanf_s "Name:" 255 (cstr l)).getD p.name else p.name := by
  have e : strncmp_eq (cstr l) "Name:" 5 = begins_with "Name:" (cstr l) := rfl
  unfold track_line
  rw [e]
  cases h : begins_with "Name:" (cstr l)
  · simp only [Bool.false_eq_true, if_false]
    split
    · split <;> rfl
    · rfl
  · simp only [if_true]
    cases sscanf_s "Name:" 255 (cstr l) <;> rfl

theorem track_line_state (p : ProcessInfo) (l : List Char) :
    (track_line p l).state =
      if begins_with "State:" (cstr l) = true
      then (sscanf_c "State:" (cstr l)).getD p.state else p.state := by
  have e : strncmp_eq (cstr l) "Name:" 5 = begins_with "Name:" (cstr l) := rfl
  have e2 : strncmp_eq (cstr l) "State:" 6 = begins_with "State:" (cstr l) := rfl
  unfold track_line
  rw [e, e2]
  cases h : begins_with "Name:" (cstr l)
  · simp only [Bool.false_eq_true, if_false]
    cases h2 : begins_with "State:" (cstr l)
    · simp only [Bool.false_eq_true, if_false]
    · simp only [if_true]
      cases sscanf_c "State:" (cstr l) <;> rfl
  · have h2 := not_state_of_name _ h
    simp only [h2, Bool.false_eq_true, if_true, if_false]
    cases sscanf_s "Name:" 255 (cstr l) <;> rfl

theorem track_line_frame (p : ProcessInfo) (l : List Char) :
    (track_line p l).pid = p.pid ∧ (track_line p l).start_time = p.start_time ∧
      (track_line p l).user = p.user ∧ (track_line p l).memory = p.memory := by
  unfold track_line
  split
  · split <;> exact ⟨rfl, rfl, rfl, rfl⟩
  · split
    · split <;> exact ⟨rfl, rfl, rfl, rfl⟩
    · exact ⟨rfl, rfl, rfl, rfl⟩

theorem track_fold_frame (ls : List (List Char)) (p : ProcessInfo) :
    (ls.foldl track_line p).pid = p.pid ∧ (ls.foldl track_line p).start_time = p.start_time ∧
      (ls.foldl track_line p).user = p.user ∧ (ls.foldl track_line p).memory = p.memory := by
  induction ls generalizing p with
  | nil => exact ⟨rfl, rfl, rfl, rfl⟩
  | cons l t ih =>
    obtain ⟨a, b, c, d⟩ := ih (track_line p l)
    obtain ⟨a2, b2, c2, d2⟩ := track_line_frame p l
    simp only [List.foldl_cons]
    exact ⟨a.trans a2, b.trans b2, c.trans c2, d.trans d2⟩

/-- Counterexample to C3 as stated: the Name: line of `sample_status` gives the
name `Web Content`, and the entry holds `Web`. -/
theorem track_process_name_is_not_whole_value :
    ¬ ∀ (env : Env) (pid : Int) (reg : Registry) (lines : List (List Char)) (nm : List Char),
      reg.tracked_count < 1024 → (∀ l ∈ lines, line_ok l = true) →
      env.status pid = some lines.flatten →
      lines.filter (begins_with "Name:") = [nm] →
      ((track_process env pid reg).1.tracked_processes reg.tracked_count).name
        = field_value "Name:" nm := by
  intro h
  have h1 := h sample_env_web 1 Registry.init sample_status "Name:\tWeb Content\n".toList
    (by decide) (by decide) rfl (by decide)
  revert h1
  decide

theorem skip_space_nil_of_value_nil (key : String) (l : List Char)
    (h : field_value key l = []) : skip_space (l.drop key.length) = [] := by
  unfold field_value at h
  cases hsk : skip_space (List.drop key.length l) with
  | nil => rfl
  | cons c r =>
    have hc : isspace c = false := skip_space_head _ c r hsk
    have hn : c ≠ '\n' := fun e => by rw [e] at hc; revert hc; decide
    rw [hsk] at h
    simp [List.takeWhile_cons, hn] at h

theorem sscanf_s_none (key : String) (l : List Char) (h1 : begins_with key l = true)
    (h2 : field_value key l = []) : sscanf_s key 255 l = none := by
  have hsk := skip_space_nil_of_value_nil key l h2
  unfold begins_with at h1
  simp only [beq_iff_eq] at h1
  have hk : key.length = key.toList.length := rfl
  rw [hk] at h1 hsk
  unfold sscanf_s
  rw [match_literal_of_take _ _ h1]
  simp only [Option.some_bind]
  unfold scan_ws
  rw [skip_space_idem, hsk]

theorem sscanf_c_none (key : String) (l : List Char) (h1 : begins_with key l = true)
    (h2 : field_value key l = []) : sscanf_c key l = none := by
  have hsk := skip_space_nil_of_value_nil key l h2
  unfold begins_with at h1
  simp only [beq_iff_eq] at h1
  have hk : key.length = key.toList.length := rfl
  rw [hk] at h1 hsk
  unfold sscanf_c
  rw [match_literal_of_take _ _ h1]
  simp only [Option.some_bind]
  rw [hsk]
  rfl

theorem field_values_append (key : String) (a b : List (List Char)) :
    field_values key (a ++ b) = field_values key a ++ field_values key b := by
  simp [field_values]

theorem field_values_single (key : String) (b : List Char) :
    field_values key [b] =
      if begins_with key (cstr b) = true ∧ field_value key (cstr b) ≠ []
      then [field_value key (cstr b)] else [] := by
  unfold field_values
  cases h1 : begins_with key (cstr b)
  · simp [h1]
  · by_cases h2 : field_value key (cstr b) = []
    · simp [h1, h2]
    · simp [h1, h2]

theorem last_value_concat (key : String) (t : List (List Char)) (b : List Char) :
    last_value key (t ++ [b]) =
      if begins_with key (cstr b) = true ∧ field_value key (cstr b) ≠ []
      then some (field_value key (cstr b)) else last_value key t := by
  unfold last_value
  rw [field_values_append, field_values_single]
  split
  · simp
  · simp

theorem track_fold_last_name (bufs : List (List Char)) (p : ProcessInfo) :
    (bufs.foldl track_line p).name =
      ((last_value "Name:" bufs).map (fun v => (first_word v).take 255)).getD p.name := by
  induction bufs using List.reverseRecOn with
  | nil => rfl
  | append_singleton t b ih =>
    rw [List.foldl_append, List.foldl_cons, List.foldl_nil, track_line_name, last_value_concat, ih]
    cases h1 : begins_with "Name:" (cstr b)
    · simp
    · by_cases h2 : field_value "Name:" (cstr b) = []
      · simp [h2, sscanf_s_none "Name:" _ h1 h2]
      · simp [h2, sscanf_s_value "Name:" _ h1 h2]

theorem track_fold_last_state (bufs : List (List Char)) (p : ProcessInfo) :
    (bufs.foldl track_line p).state =
      ((last_value "State:" bufs).bind List.head?).getD p.state := by
  induction bufs using List.reverseRecOn with
  | nil => rfl
  | append_singleton t b ih =>
    rw [List.foldl_append, List.foldl_cons, List.foldl_nil, track_line_state, last_value_concat,
      ih]
    cases h1 : begins_with "State:" (cstr b)
    · simp
    · by_cases h2 : field_value "State:" (cstr b) = []
      · simp [h2, sscanf_c_none "State:" _ h1 h2]
      · cases hv : field_value "State:" (cstr b) with
        | nil => exact absurd hv h2
        | cons a r =>
          have h3 := sscanf_c_value "State:" _ h1 h2
          rw [hv] at h3
          simp [h3]

theorem last_value_of_unique (key : String) (lines : List (List Char)) (nm : List Char)
    (hl : ∀ l ∈ lines, line_ok l = true)
    (hn : lines.filter (begins_with key) = [nm]) (hv : field_value key nm ≠ []) :
    last_value key lines = some (field_value key nm) := by
  have hm : lines.map cstr = lines := by
    conv => rhs; rw [← List.map_id lines]
    exact List.map_congr_left (fun l hm => cstr_of_line_ok l (hl l hm))
  unfold last_value field_values
  rw [hm, hn]
  simp [hv]

/-- C3, amended: for every registry with `tracked_count = n < 1024` and every
pid whose status text is readable, `track_process` appends exactly one entry:
afterwards `tracked_count = n + 1`, every entry other than entry `n` is
unchanged, and entry `n` holds the given pid, the first white-space-delimited
word (at most 255 characters) of the value of the Name: line, the first
character of the value of the State: line, and the current time as
`start_time`.  The lines are those `fgets(line, 256, fp)` delivers, up to
their first NUL: a text made of newline-terminated lines arrives line by
line, a line of at most 255 characters whole and a longer one in pieces.
When several lines begin with Name: (or State:) the last one that carries a
value counts; when none does, the name (or state) of the slot stays as it
was.  In particular, for a text made of lines of at most 255 characters
without NUL with exactly one Name: line and one State: line, each with a
value, the entry holds the first word of that name and that state
character. -/
theorem track_process_appends (env : Env) (pid : Int) (reg : Registry) (text : List Char)
    (hc : reg.tracked_count < 1024) (hs : env.status pid = some text) :
    (track_process env pid reg).1.tracked_count = reg.tracked_count + 1 ∧
    (∀ i : Int, i ≠ reg.tracked_count →
      (track_process env pid reg).1.tracked_processes i = reg.tracked_processes i) ∧
    ((track_process env pid reg).1.tracked_processes reg.tracked_count).pid = pid ∧
    ((track_process env pid reg).1.tracked_processes reg.tracked_count).name
      = ((last_value "Name:" (file_lines text)).map (fun v => (first_word v).take 255)).getD
          (reg.tracked_processes reg.tracked_count).name ∧
    ((track_process env pid reg).1.tracked_processes reg.tracked_count).state
      = ((last_value "State:" (file_lines text)).bind List.head?).getD
          (reg.tracked_processes reg.tracked_count).state ∧
    ((track_process env pid reg).1.tracked_processes reg.tracked_count).start_time
      = env.time ∧
    (∀ lines : List (List Char), (∀ l ∈ lines, line_nl l = true) → text = lines.flatten →
      file_lines text = (lines.map file_lines).flatten ∧
      (∀ l ∈ lines, line_ok l = true → file_lines l = [l] ∧ cstr l = l)) ∧
    (∀ (lines : List (List Char)) (nm st : List Char), (∀ l ∈ lines, line_ok l = true) →
      text = lines.flatten →
      lines.filter (begins_with "Name:") = [nm] → lines.filter (begins_with "State:") = [st] →
      field_value "Name:" nm ≠ [] → field_value "State:" st ≠ [] →
      ((track_process env pid reg).1.tracked_processes reg.tracked_count).name
        = (first_word (field_value "Name:" nm)).take 255 ∧
      some ((track_process env pid reg).1.tracked_processes reg.tracked_count).state
        = (field_value "State:" st).head?) := by
  have hge : ¬ reg.tracked_count ≥ MAX_PROCESS_COUNT := by
    simp only [MAX_PROCESS_COUNT]
    omega
  have hslot : (track_process env pid reg).1.tracked_processes reg.tracked_count =
      (file_lines text).foldl track_line
        { reg.tracked_processes reg.tracked_count with pid := pid, start_time := env.time } := by
    unfold track_process
    simp only [hge, if_false, hs, if_true]
  have hname := track_fold_last_name (file_lines text)
    { reg.tracked_processes reg.tracked_count with pid := pid, start_time := env.time }
  have hstate := track_fold_last_state (file_lines text)
    { reg.tracked_processes reg.tracked_count with pid := pid, start_time := env.time }
  have hframe := track_fold_frame (file_lines text)
    { reg.tracked_processes reg.tracked_count with pid := pid, start_time := env.time }
  refine ⟨?_, ?_, ?_, ?_, ?_, ?_, ?_, ?_⟩
  · unfold track_process
    simp only [hge, if_false, hs]
  · intro i hi
    unfold track_process
    simp only [hge, if_false, hs]
    simp [hi]
  · rw [hslot]
    exact hframe.1
  · rw [hslot]
    exact hname
  · rw [hslot]
    exact hstate
  · rw [hslot]
    exact hframe.2.1
  · intro lines hl ht
    rw [ht]
    exact ⟨file_lines_lines lines hl,
      fun l _ hok => ⟨file_lines_single l hok, cstr_of_line_ok l hok⟩⟩
  · intro lines nm st hl ht hn hst hnv hsv
    rw [hslot, hname, hstate, ht, file_lines_flatten lines hl,
      last_value_of_unique "Name:" lines nm hl hn hnv,
      last_value_of_unique "State:" lines st hl hst hsv]
    refine ⟨rfl, ?_⟩
    cases hv : field_value "State:" st with
    | nil => exact absurd hv hsv
    | cons a r => rfl

set_option maxRecDepth 100000 in
/-- Witness of C3, amended: tracking process 1 at program start, with a status
text that has a line of 302 characters, stores the name `Web` and the state
`S` in entry 0. -/
theorem track_process_appends_witness :
    (track_process sample_env_long 1 Registry.init).1.tracked_count = 0 + 1 ∧
    ((track_process sample_env_long 1 Registry.init).1.tracked_processes 0).name
      = "Web".toList ∧
    ((track_process sample_env_long 1 Registry.init).1.tracked_processes 0).state = 'S' ∧
    ((track_process sample_env_long 1 Registry.init).1.tracked_processes 0).start_time = 100 ∧
    ((track_process sample_env_web 1 Registry.init).1.tracked_processes 0).name
      = (first_word (field_value "Name:" "Name:\tWeb Content\n".toList)).take 255 :=
  ⟨(track_process_appends sample_env_long 1 Registry.init sample_status_long.flatten
      (by decide) rfl).1,
    (track_process_appends sample_env_long 1 Registry.init sample_status_long.flatten
      (by decide) rfl).2.2.2.1.trans (by decide),
    (track_process_appends sample_env_long 1 Registry.init sample_status_long.flatten
      (by decide) rfl).2.2.2.2.1.trans (by decide),
    (track_process_appends sample_env_long 1 Registry.init sample_status_long.flatten
      (by decide) rfl).2.2.2.2.2.1,
    ((track_process_appends sample_env_web 1 Registry.init sample_status.flatten
      (by decide) rfl).2.2.2.2.2.2.2 sample_status "Name:\tWeb Content\n".toList
      "State:\tS (sleeping)\n".toList (by decide) rfl (by decide) (by decide) (by decide)
      (by decide)).1⟩

end ProcessManager
